import Mathlib

/-!
# Flappy-Ball: a verification development over `src/main.cpp`

The program is embedded shallowly.  Conventions used throughout:

* `float` values are modelled by exact rationals (`ℚ`); rounding is not modelled.
  Every concrete input used below is a dyadic rational with a handful of bits, on
  which single-precision arithmetic is exact.
* `int` values are modelled by `Int`, `unsigned`/`size_t` by `Nat`.
* `rand()` is modelled by a stream `Nat → Nat` of the values it will return; every
  call takes the head of the stream and leaves the tail.
* Library behaviour that the program relies on (`std::sort`, `operator>>`,
  `sf::Rect::intersects`, `sf::Shape::getGlobalBounds`) is modelled from the
  documented behaviour of the C++ standard library and of SFML 2.
* Code paths with undefined behaviour or without termination return `none`.
-/

set_option autoImplicit false

namespace FlappyBall

/-! ## Score persistence (`GameState::LoadScores`, `GameState::SaveScores`) -/

/-- Text produced by `writer << v` for an `int`: optional minus sign and decimal digits. -/
def formatInt (v : Int) : List Char := (toString v).data

/-- Result of `std::sort(scores.rbegin(), scores.rend())`: the reverse view is ascending,
so the vector itself is in non-increasing order. -/
def sortDescending (scores : List Int) : List Int :=
  scores.insertionSort (fun a b => b ≤ a)

/-- Upper bound of the write loop: `scores.size() <= 10 ? scores.size() : 10`. -/
def writeBound (scores : List Int) : Nat :=
  if scores.length ≤ 10 then scores.length else 10

/-- The loop `for (i = 0; i < bound; i++) writer << scores[i] << "\n";`
started on a freshly truncated file. -/
def writeLoop (scores : List Int) (bound : Nat) : List Char :=
  (List.range bound).foldl (fun out i => out ++ (formatInt (scores.getD i 0) ++ ['\n'])) []

/-- `GameState::SaveScores`.  `canOpen` tells whether `writer.is_open()` holds.  The
result is the vector after the call (it is sorted in place through the reference)
and the new file content, `none` when nothing was written because the file could
not be opened. -/
def SaveScores (canOpen : Bool) (scores : List Int) : List Int × Option (List Char) :=
  let sorted := sortDescending scores
  if canOpen then (sorted, some (writeLoop sorted (writeBound sorted)))
  else (sorted, none)

/-- The persisted format: every integer followed by a newline. -/
def persistedFormat (values : List Int) : List Char :=
  values.flatMap (fun v => formatInt v ++ ['\n'])

/-- State of a `std::ifstream` opened on a file: the unread rest and two state bits. -/
structure IfStream where
  buf : List Char
  eofbit : Bool
  failbit : Bool
deriving DecidableEq, Repr

/-- Classification `std::isspace` in the "C" locale. -/
def isSpace (c : Char) : Bool :=
  c = ' ' || c = '\t' || c = '\n' || c = '\x0b' || c = '\x0c' || c = '\r'

/-- Largest value of a 32-bit `int`. -/
def INT_MAX : Int := 2147483647

/-- Smallest value of a 32-bit `int`. -/
def INT_MIN : Int := -2147483648

/-- Value of a run of decimal digits. -/
def digitsValue (digits : List Char) : Nat :=
  digits.foldl (fun acc d => 10 * acc + (d.toNat - '0'.toNat)) 0

/-- Formatted extraction `reader >> value` for an `int`.  `value` is what the
variable held before the call.

* The sentry fails on a stream that is not `good()`: `failbit` is set and `value`
  is left alone.
* Leading white space is skipped; reaching the end of the file there sets
  `eofbit` and `failbit` and leaves `value` alone.
* Otherwise an optional sign and the longest run of digits are read; reading up
  to the end of the file sets `eofbit`.  Without a digit the extraction fails and
  stores `0`; a value out of range fails and stores the nearest bound. -/
def IfStream.extractInt (s : IfStream) (value : Int) : IfStream × Int :=
  if s.eofbit || s.failbit then ({ s with failbit := true }, value)
  else
    match s.buf.dropWhile isSpace with
    | [] => ({ buf := [], eofbit := true, failbit := true }, value)
    | c :: cs =>
      let negative := decide (c = '-')
      let afterSign := if c = '-' ∨ c = '+' then cs else c :: cs
      let digits := afterSign.takeWhile Char.isDigit
      let rest := afterSign.dropWhile Char.isDigit
      let atEnd := rest.isEmpty
      if digits.isEmpty then ({ buf := rest, eofbit := atEnd, failbit := true }, 0)
      else
        let v : Int := if negative then -(digitsValue digits : Int) else (digitsValue digits : Int)
        if INT_MAX < v then ({ buf := rest, eofbit := atEnd, failbit := true }, INT_MAX)
        else if v < INT_MIN then ({ buf := rest, eofbit := atEnd, failbit := true }, INT_MIN)
        else ({ buf := rest, eofbit := atEnd, failbit := false }, v)

/-- The loop `while (!reader.eof()) { int value; reader >> value; scores.push_back(value); }`.
`indet` lists the indeterminate contents of the uninitialised local `value`, one
per iteration.  The loop need not terminate (a stream with `failbit` and without
`eofbit` never changes again), hence the fuel. -/
def LoadScores.loop : Nat → IfStream → (Nat → Int) → List Int → Option (List Int)
  | 0, _, _, _ => none
  | fuel + 1, reader, indet, scores =>
    if reader.eofbit then some scores
    else
      let r := reader.extractInt (indet 0)
      LoadScores.loop fuel r.1 (fun n => indet (n + 1)) (scores ++ [r.2])

/-- `GameState::LoadScores`.  `file` is the content of the file at `filepath`, `none`
when it cannot be opened; `scores` is the vector passed by reference. -/
def LoadScores (fuel : Nat) (file : Option (List Char)) (indet : Nat → Int)
    (scores : List Int) : Option (List Int) :=
  match file with
  | none => some scores
  | some content =>
    LoadScores.loop fuel { buf := content, eofbit := false, failbit := false } indet scores

/-! ## Geometry (SFML value types) -/

/-- A `sf::Vector2f`. -/
structure Vector2f where
  x : ℚ
  y : ℚ
deriving DecidableEq

/-- A `sf::Vector2u`. -/
structure Vector2u where
  x : Nat
  y : Nat
deriving DecidableEq

/-- A `sf::FloatRect`. -/
structure FloatRect where
  left : ℚ
  top : ℚ
  width : ℚ
  height : ℚ
deriving DecidableEq

/-- Constructor `sf::FloatRect(position, size)`. -/
def FloatRect.ofPosSize (pos size : Vector2f) : FloatRect :=
  { left := pos.x, top := pos.y, width := size.x, height := size.y }

/-- Test `sf::Rect::intersects` of SFML 2: both rectangles are normalised (negative
extents are allowed) and the overlap must have positive area. -/
def FloatRect.intersects (a b : FloatRect) : Bool :=
  let r1MinX := min a.left (a.left + a.width)
  let r1MaxX := max a.left (a.left + a.width)
  let r1MinY := min a.top (a.top + a.height)
  let r1MaxY := max a.top (a.top + a.height)
  let r2MinX := min b.left (b.left + b.width)
  let r2MaxX := max b.left (b.left + b.width)
  let r2MinY := min b.top (b.top + b.height)
  let r2MaxY := max b.top (b.top + b.height)
  let interLeft := max r1MinX r2MinX
  let interTop := max r1MinY r2MinY
  let interRight := min r1MaxX r2MaxX
  let interBottom := min r1MaxY r2MaxY
  decide (interLeft < interRight) && decide (interTop < interBottom)

/-- The part of a `sf::CircleShape` the game logic reads: its position and its local
bounds.  The local bounds are fixed by SFML from the radius and the point count;
they are a parameter here. -/
structure CircleShape where
  position : Vector2f
  localBounds : FloatRect
deriving DecidableEq

/-- Method `getGlobalBounds` of a shape with the identity rotation, scale and origin:
the local bounds translated by the position. -/
def CircleShape.getGlobalBounds (c : CircleShape) : FloatRect :=
  { left := c.position.x + c.localBounds.left, top := c.position.y + c.localBounds.top,
    width := c.localBounds.width, height := c.localBounds.height }

/-- Method `move` of a shape. -/
def CircleShape.move (c : CircleShape) (offset : Vector2f) : CircleShape :=
  { c with position := { x := c.position.x + offset.x, y := c.position.y + offset.y } }

/-- Method `setPosition` of a shape. -/
def CircleShape.setPosition (c : CircleShape) (pos : Vector2f) : CircleShape :=
  { c with position := pos }

/-! ## Pipes (`class Pipe`) -/

/-- The stream of values that the coming calls of `rand()` return. -/
abbrev RandStream := Nat → Nat

/-- The stream after one call of `rand()`. -/
def RandStream.next (rands : RandStream) : RandStream := fun n => rands (n + 1)

/-- The stream after `k` calls of `rand()`. -/
def RandStream.skip (rands : RandStream) (k : Nat) : RandStream := fun n => rands (n + k)

/-- Conversion `(int)f` of a `float`: truncation towards zero. -/
def truncToInt (f : ℚ) : Int := if 0 ≤ f then f.floor else -((-f).floor)

/-- A `Pipe`. -/
structure Pipe where
  position : Vector2f
  pipeSize : Vector2f
  bounds : FloatRect
  speed : ℚ
deriving DecidableEq

/-- Constant `Pipe::distancePipesY`. -/
def Pipe.distancePipesY : Int := 125

/-- Constructor `Pipe(pos, size)`. -/
def Pipe.new (pos size : Vector2f) : Pipe :=
  { position := pos, pipeSize := size, speed := 100, bounds := FloatRect.ofPosSize pos size }

/-- Constructor `Pipe()`: the vectors and the rectangle are zero; `speed` is left
uninitialised by the source and is given as `speed`. -/
def Pipe.default (speed : ℚ) : Pipe :=
  { position := ⟨0, 0⟩, pipeSize := ⟨0, 0⟩, bounds := ⟨0, 0, 0, 0⟩, speed := speed }

/-- `Pipe::Logic`. -/
def Pipe.Logic (p : Pipe) (windowSize : Vector2u) (dt : ℚ) : Pipe :=
  let position : Vector2f := { p.position with x := p.position.x - p.speed * dt }
  let bounds := FloatRect.ofPosSize position p.pipeSize
  if position.x + p.pipeSize.x < 0 then
    { p with position := { position with x := (windowSize.x : ℚ) }, bounds := bounds }
  else
    { p with position := position, bounds := bounds }

/-- `Pipe::CalculateHeights`; `r` is the value returned by `rand()`.  The remainder
`rand() % (int)maxHeight` is that of C++ (truncated division); it is undefined
for a zero divisor, in which case the result is `none`. -/
def Pipe.CalculateHeights (minHeight maxHeight : ℚ) (windowSize : Vector2u) (r : Nat) :
    Option (ℚ × ℚ) :=
  if truncToInt maxHeight = 0 then none
  else
    let first : ℚ := (((r : Int).tmod (truncToInt maxHeight) : Int) : ℚ) + minHeight
    let second : ℚ := |(windowSize.y : ℚ) - (first + (Pipe.distancePipesY : ℚ))|
    some (first, second)

/-! ## Pipe pairs (`PlayState::PipePair`) -/

/-- A `PlayState::PipePair`. -/
structure PipePair where
  pipes : Pipe × Pipe
  rectBetweenPipes : FloatRect
  speed : ℚ
deriving DecidableEq

/-- Constructor `PipePair()`: `speed` has the default member initialiser `100.0f`;
`pipeSpeed` stands for the uninitialised `speed` of the two default pipes. -/
def PipePair.default (pipeSpeed : ℚ) : PipePair :=
  { pipes := (Pipe.default pipeSpeed, Pipe.default pipeSpeed),
    rectBetweenPipes := ⟨0, 0, 0, 0⟩, speed := 100 }

/-- `PipePair::Initialize`; `r` is the value returned by the one call of `rand()`. -/
def PipePair.Initialize (self : PipePair) (position : Vector2f) (windowSize : Vector2u)
    (r : Nat) : Option PipePair :=
  match Pipe.CalculateHeights 75 ((windowSize.y : ℚ) - 275) windowSize r with
  | none => none
  | some heights =>
    some { self with
      pipes := (Pipe.new position ⟨50, heights.1⟩,
                Pipe.new ⟨position.x, position.y + (Pipe.distancePipesY : ℚ) + heights.1⟩
                  ⟨50, heights.2⟩),
      rectBetweenPipes :=
        ⟨position.x, position.y + heights.1, 50, (Pipe.distancePipesY : ℚ)⟩ }

/-- `PipePair::IsIntersectBounds`. -/
def PipePair.IsIntersectBounds (self : PipePair) (circle : CircleShape) : Bool :=
  if self.pipes.1.bounds.intersects circle.getGlobalBounds then true
  else if self.pipes.2.bounds.intersects circle.getGlobalBounds then true
  else false

/-- `PipePair::isCircleBetweenPipes`. -/
def PipePair.isCircleBetweenPipes (self : PipePair) (circle : CircleShape) : Bool :=
  self.rectBetweenPipes.intersects circle.getGlobalBounds

/-- The pair after the two `pipes[i].Logic` calls and the shift of the gap rectangle,
before the test for leaving the window on the left. -/
def PipePair.shifted (self : PipePair) (windowSize : Vector2u) (dt : ℚ) : PipePair :=
  { self with
    pipes := (self.pipes.1.Logic windowSize dt, self.pipes.2.Logic windowSize dt),
    rectBetweenPipes :=
      { self.rectBetweenPipes with left := self.rectBetweenPipes.left - self.speed * dt } }

/-- `PipePair::Logic`.  A call of `Initialize` takes one value from the stream. -/
def PipePair.Logic (self : PipePair) (windowSize : Vector2u) (dt : ℚ) (rands : RandStream) :
    Option (PipePair × RandStream) :=
  let p := self.shifted windowSize dt
  if p.rectBetweenPipes.left + p.rectBetweenPipes.width < 0 then
    let p1 := { p with rectBetweenPipes := { p.rectBetweenPipes with left := (windowSize.x : ℚ) } }
    match p1.Initialize ⟨(windowSize.x : ℚ), 0⟩ windowSize (rands 0) with
    | none => none
    | some p2 => some (p2, rands.next)
  else some (p, rands)

/-! ## Screens (`GameState` and its subclasses) -/

/-- The anonymous enumeration of `GameState::state`. -/
inductive StateId where
  | Menu
  | Play
  | HighScore
  | Quit
deriving DecidableEq, Repr

/-- The events of `sf::Event` that the program distinguishes.  `code` is the first
member of the event payload (`e.key.code`, which the union overlays with
`e.mouseButton.button`). -/
inductive Event where
  | Closed
  | Resized (width height : Nat)
  | KeyPressed (code : Int)
  | MouseButtonPressed (code : Int)
  | Other
deriving DecidableEq

/-- Enumerator `sf::Keyboard::Escape`. -/
def Keyboard.Escape : Int := 36

/-- Enumerator `sf::Mouse::Left`. -/
def Mouse.Left : Int := 0

/-- What lies outside the process: the values `rand()` will return, the content of
`files/scores.txt` (`none` when it cannot be opened for reading) and whether the
file can be opened for writing. -/
structure World where
  rands : RandStream
  scoresFile : Option (List Char)
  canWrite : Bool

/-- Contents of memory that the source reads or keeps without initialising it: the
`state` member of a fresh screen, the local `value` of `LoadScores` in each
iteration, and the `speed` of a default-constructed `Pipe`. -/
structure Uninit where
  state : StateId
  value : Nat → Int
  speed : ℚ

/-- A `PlayState` (the members the logic reads or writes). -/
structure PlayState where
  windowSize : Vector2u
  state : StateId
  isStateChanged : Bool
  circle : CircleShape
  velocity : Vector2f
  jumpSpeed : ℚ
  gSpeed : ℚ
  gMax : ℚ
  initWindowSize : Vector2u
  score : Int
  isHit : Bool
  scores : List Int
  pipePairs : List PipePair
deriving DecidableEq

/-- The variables the loop over `pipePairs` in `PlayState::Logic` updates. -/
structure PipesLoop where
  pipePairs : List PipePair
  isHit : Bool
  score : Int
  rands : RandStream

/-- The `if (pipes.IsIntersectBounds(circle)) ... else if (...) ...` of the loop body
of `PlayState::Logic`, on a pair already advanced: the new `isHit` and `score`. -/
def PlayState.checkPair (circle : CircleShape) (pipes : PipePair) (isHit : Bool)
    (score : Int) : Bool × Int :=
  if pipes.IsIntersectBounds circle then (true, score)
  else if pipes.isCircleBetweenPipes circle then
    if circle.position.x + 7 / 4 >
        pipes.rectBetweenPipes.left + pipes.rectBetweenPipes.width then (isHit, score + 1)
    else (isHit, score)
  else (isHit, score)

/-- The loop `for (auto& pipes : pipePairs) { ... }` of `PlayState::Logic`. -/
def PlayState.pipesLoop (circle : CircleShape) (windowSize : Vector2u) (dt : ℚ) :
    List PipePair → Bool → Int → RandStream → Option PipesLoop
  | [], isHit, score, rands => some ⟨[], isHit, score, rands⟩
  | pipes :: rest, isHit, score, rands =>
    match pipes.Logic windowSize dt rands with
    | none => none
    | some (pipes1, rands1) =>
      match PlayState.pipesLoop circle windowSize dt rest
          (PlayState.checkPair circle pipes1 isHit score).1
          (PlayState.checkPair circle pipes1 isHit score).2 rands1 with
      | none => none
      | some r => some { r with pipePairs := pipes1 :: r.pipePairs }

/-- `PlayState::Input`; `pressed` is `KeyPress(Space) || MousePress(Left)`. -/
def PlayState.Input (s : PlayState) (pressed : Bool) : PlayState :=
  if pressed && !s.isHit then { s with velocity := { s.velocity with y := -s.jumpSpeed } }
  else s

/-- `PlayState::ManageEvent`. -/
def PlayState.ManageEvent (s : PlayState) (e : Event) : PlayState :=
  match e with
  | .KeyPressed code =>
    if code = Keyboard.Escape then { s with state := .Menu, isStateChanged := true } else s
  | _ => s

/-- The first two statements of `PlayState::Logic`, the new `velocity.y`:
`velocity.y += gSpeed; if (velocity.y > gMax) velocity.y = gMax;`. -/
def PlayState.fall (s : PlayState) : ℚ :=
  let vy := s.velocity.y + s.gSpeed
  if vy > s.gMax then s.gMax else vy

/-- The block `if (!isHit) { for (auto& pipes : pipePairs) ... }` of `PlayState::Logic`. -/
def PlayState.advancePipes (s : PlayState) (dt : ℚ) (rands : RandStream) : Option PipesLoop :=
  if !s.isHit then
    PlayState.pipesLoop s.circle s.windowSize dt s.pipePairs s.isHit s.score rands
  else some ⟨s.pipePairs, s.isHit, s.score, rands⟩

/-- The statements `circle.move({ 0, velocity.y * dt });
if (circle.getPosition().y < 0) circle.setPosition({ x, 0 });` of `PlayState::Logic`. -/
def PlayState.moveCircle (circle : CircleShape) (vy dt : ℚ) : CircleShape :=
  let c1 := circle.move ⟨0, vy * dt⟩
  if c1.position.y < 0 then c1.setPosition ⟨c1.position.x, 0⟩ else c1

/-- The last block of `PlayState::Logic`: below the window the session ends, the
score is appended and saved and the Menu is requested (the pause is not modelled). -/
def PlayState.endSession (s : PlayState) (w : World) : PlayState × World :=
  if s.circle.position.y > (s.windowSize.y : ℚ) then
    let saved := SaveScores w.canWrite (s.scores ++ [s.score])
    ({ s with scores := saved.1, state := .Menu, isStateChanged := true },
     { w with scoresFile := match saved.2 with
                | some content => some content
                | none => w.scoresFile })
  else (s, w)

/-- `PlayState::Logic`. -/
def PlayState.Logic (s : PlayState) (dt : ℚ) (w : World) : Option (PlayState × World) :=
  match s.advancePipes dt w.rands with
  | none => none
  | some r =>
    some (PlayState.endSession
      { s with velocity := { s.velocity with y := s.fall }, pipePairs := r.pipePairs,
               isHit := r.isHit, score := r.score,
               circle := PlayState.moveCircle s.circle s.fall dt }
      { w with rands := r.rands })

/-- The loop of the constructor of `PlayState` that creates and initialises the pairs,
over the indices `i`. -/
def PlayState.initPipePairs (windowSize : Vector2u) (pipeSpeed : ℚ) :
    List Nat → RandStream → Option (List PipePair × RandStream)
  | [], rands => some ([], rands)
  | i :: rest, rands =>
    match (PipePair.default pipeSpeed).Initialize
        ⟨200 + (windowSize.x : ℚ) - (i : ℚ) * 168, 0⟩ windowSize (rands 0) with
    | none => none
    | some p =>
      match PlayState.initPipePairs windowSize pipeSpeed rest rands.next with
      | none => none
      | some (ps, rands1) => some (p :: ps, rands1)

/-- The constructor of `PlayState`.  The two colours take six values of `rand()`;
`circleBounds` is the local bounds of the circle of radius 16. -/
def PlayState.new (circleBounds : FloatRect) (u : Uninit) (fuel : Nat) (w : World) :
    Option (PlayState × World) :=
  match LoadScores fuel w.scoresFile u.value [] with
  | none => none
  | some scores =>
    let windowSize : Vector2u := ⟨800, 600⟩
    match PlayState.initPipePairs windowSize u.speed (List.range 5) (w.rands.skip 6) with
    | none => none
    | some (pairs, rands) =>
      some ({ windowSize := windowSize, state := u.state, isStateChanged := false,
              circle := { position := ⟨25, 25⟩, localBounds := circleBounds },
              velocity := ⟨0, 0⟩, jumpSpeed := 350, gSpeed := 50, gMax := 400,
              initWindowSize := ⟨800, 600⟩, score := 0, isHit := false,
              scores := scores, pipePairs := pairs },
            { w with rands := rands })

/-- The operations of `Button` (declared in `GraphicsUI.h`) that `MenuState` calls:
`make pos size r g b` is a button after `Initialize`, `SetColors`, `SetOutline`
and `ResetColor` with the colour drawn from `rand()`. -/
structure ButtonOps (B : Type) where
  make : Vector2f → Vector2f → Nat → Nat → Nat → B
  Logic : B → Event → Vector2f → B
  IsPositionInBounds : B → Vector2f → Bool

/-- A `MenuState`. -/
structure MenuState (B : Type) where
  windowSize : Vector2u
  state : StateId
  isStateChanged : Bool
  buttons : List B
  buttonSize : Vector2f

/-- `MenuState::Initialize`, over the indices `i`; every button takes three values
of `rand()`. -/
def MenuState.Initialize {B : Type} (ops : ButtonOps B) (windowSize : Vector2u)
    (buttonSize : Vector2f) : List Nat → RandStream → List B × RandStream
  | [], rands => ([], rands)
  | i :: rest, rands =>
    let b := ops.make
      ⟨((windowSize.x : ℚ) - buttonSize.x) / 2,
       (windowSize.y : ℚ) / 2 + 75 + (i : ℚ) * (buttonSize.y + 10)⟩
      buttonSize (rands 0 % 100) (rands 1 % 100) (rands 2 % 100)
    let r := MenuState.Initialize ops windowSize buttonSize rest (rands.skip 3)
    (b :: r.1, r.2)

/-- The constructor of `MenuState`. -/
def MenuState.new {B : Type} (ops : ButtonOps B) (u : Uninit) (w : World) :
    MenuState B × World :=
  let windowSize : Vector2u := ⟨800, 600⟩
  let buttonSize : Vector2f := ⟨128, 40⟩
  let r := MenuState.Initialize ops windowSize buttonSize (List.range 3) w.rands
  ({ windowSize := windowSize, state := u.state, isStateChanged := false,
     buttons := r.1, buttonSize := buttonSize },
   { w with rands := r.2 })

/-- The loop over the buttons in `MenuState::ManageEvent` for a left click, from
index `i` on; the result is the new `state` and `isStateChanged`. -/
def MenuState.clickLoop {B : Type} (ops : ButtonOps B) (mousePos : Vector2f) :
    List B → Nat → StateId → Bool → StateId × Bool
  | [], _, state, isStateChanged => (state, isStateChanged)
  | b :: rest, i, state, isStateChanged =>
    if ops.IsPositionInBounds b mousePos then
      let state1 :=
        match i + 1 with
        | 1 => StateId.Play
        | 2 => StateId.HighScore
        | 3 => StateId.Quit
        | _ => state
      MenuState.clickLoop ops mousePos rest (i + 1) state1 true
    else MenuState.clickLoop ops mousePos rest (i + 1) state isStateChanged

/-- `MenuState::ManageEvent`. -/
def MenuState.ManageEvent {B : Type} (ops : ButtonOps B) (s : MenuState B) (e : Event)
    (mousePos : Vector2f) : MenuState B :=
  let s1 := { s with buttons := s.buttons.map (fun b => ops.Logic b e mousePos) }
  match e with
  | .MouseButtonPressed code =>
    if code = Mouse.Left then
      let r := MenuState.clickLoop ops mousePos s1.buttons 0 s1.state s1.isStateChanged
      { s1 with state := r.1, isStateChanged := r.2 }
    else s1
  | _ => s1

/-- A `HighScoreState`. -/
structure HighScoreState where
  windowSize : Vector2u
  state : StateId
  isStateChanged : Bool
  scores : List Int

/-- The constructor of `HighScoreState`; the colour takes three values of `rand()`. -/
def HighScoreState.new (u : Uninit) (fuel : Nat) (w : World) :
    Option (HighScoreState × World) :=
  match LoadScores fuel w.scoresFile u.value [] with
  | none => none
  | some scores =>
    some ({ windowSize := ⟨800, 600⟩, state := u.state, isStateChanged := false,
            scores := scores },
          { w with rands := w.rands.skip 3 })

/-- `HighScoreState::ManageEvent`. -/
def HighScoreState.ManageEvent (s : HighScoreState) (e : Event) : HighScoreState :=
  match e with
  | .KeyPressed code =>
    if code = Keyboard.Escape then { s with state := .Menu, isStateChanged := true } else s
  | _ => s

/-! ## The game loop (`class Game`) -/

/-- The object behind `std::unique_ptr<GameState> gameState`. -/
inductive Screen (B : Type) where
  | menu (s : MenuState B)
  | play (s : PlayState)
  | highScore (s : HighScoreState)

/-- Which screen class an object has, named by the enumerator that requests it. -/
def Screen.kind {B : Type} : Screen B → StateId
  | .menu _ => .Menu
  | .play _ => .Play
  | .highScore _ => .HighScore

/-- Member `gameState->state`. -/
def Screen.state {B : Type} : Screen B → StateId
  | .menu s => s.state
  | .play s => s.state
  | .highScore s => s.state

/-- Member `gameState->isStateChanged`. -/
def Screen.isStateChanged {B : Type} : Screen B → Bool
  | .menu s => s.isStateChanged
  | .play s => s.isStateChanged
  | .highScore s => s.isStateChanged

/-- Assignment `gameState->isStateChanged = false`. -/
def Screen.clearStateChanged {B : Type} : Screen B → Screen B
  | .menu s => .menu { s with isStateChanged := false }
  | .play s => .play { s with isStateChanged := false }
  | .highScore s => .highScore { s with isStateChanged := false }

/-- Assignment `gameState->windowSize = windowSize`. -/
def Screen.setWindowSize {B : Type} (size : Vector2u) : Screen B → Screen B
  | .menu s => .menu { s with windowSize := size }
  | .play s => .play { s with windowSize := size }
  | .highScore s => .highScore { s with windowSize := size }

/-- Virtual call `gameState->ManageEvent(event, mousePos)`. -/
def Screen.ManageEvent {B : Type} (ops : ButtonOps B) (e : Event) (mousePos : Vector2f) :
    Screen B → Screen B
  | .menu s => .menu (s.ManageEvent ops e mousePos)
  | .play s => .play (s.ManageEvent e)
  | .highScore s => .highScore (s.ManageEvent e)

/-- Virtual call `gameState->Input()`; only `PlayState` overrides it. -/
def Screen.Input {B : Type} (pressed : Bool) : Screen B → Screen B
  | .play s => .play (s.Input pressed)
  | other => other

/-- Virtual call `gameState->Logic(dt)`; `MenuState` and `HighScoreState` do nothing. -/
def Screen.Logic {B : Type} (dt : ℚ) (w : World) : Screen B → Option (Screen B × World)
  | .play s =>
    match s.Logic dt w with
    | none => none
    | some (s1, w1) => some (.play s1, w1)
  | other => some (other, w)

/-- The members of `Game` and the world around it. -/
structure Game (B : Type) where
  windowOpen : Bool
  windowSize : Vector2u
  gameState : Screen B
  initDt : ℚ
  world : World

/-- What one pass of the loop of `Game::Logic` reads from outside: the clock, the
mouse position, the pending events, whether a jump control is held, the contents
of uninitialised memory, and the number of iterations allowed to `LoadScores`. -/
structure FrameInput where
  elapsed : ℚ
  mousePos : Vector2f
  events : List Event
  pressed : Bool
  uninit : Uninit
  fuel : Nat

/-- The constructor of `Game`. -/
def Game.new {B : Type} (ops : ButtonOps B) (size : Vector2u) (u : Uninit) (w : World) :
    Game B :=
  let r := MenuState.new ops u w
  { windowOpen := true, windowSize := size, gameState := .menu r.1, initDt := 0, world := r.2 }

/-- The values of `dt`, `initDt` and `newDt` after the four lines
`newDt = clock...; dt = newDt - initDt; initDt = newDt; if (newDt > 0.25f) newDt = 0.25f;`. -/
structure ClockStep where
  dt : ℚ
  initDt : ℚ
  newDt : ℚ
deriving DecidableEq

/-- The frame-time computation of `Game::Logic`; `elapsed` is the clock reading. -/
def Game.clockStep (initDt elapsed : ℚ) : ClockStep :=
  let newDt := elapsed
  let dt := newDt - initDt
  let initDt1 := newDt
  let newDt1 := if newDt > 1 / 4 then 1 / 4 else newDt
  { dt := dt, initDt := initDt1, newDt := newDt1 }

/-- The block `if (gameState->isStateChanged) { switch (gameState->state) ... }`. -/
def Game.swapScreen {B : Type} (ops : ButtonOps B) (circleBounds : FloatRect)
    (g : Game B) (u : Uninit) (fuel : Nat) : Option (Game B) :=
  if g.gameState.isStateChanged then
    match g.gameState.state with
    | .Menu =>
      let r := MenuState.new ops u g.world
      some { g with gameState := (Screen.menu r.1).clearStateChanged, world := r.2 }
    | .Play =>
      match PlayState.new circleBounds u fuel g.world with
      | none => none
      | some (s, w) => some { g with gameState := (Screen.play s).clearStateChanged, world := w }
    | .HighScore =>
      match HighScoreState.new u fuel g.world with
      | none => none
      | some (s, w) =>
        some { g with gameState := (Screen.highScore s).clearStateChanged, world := w }
    | .Quit => some { g with windowOpen := false, gameState := g.gameState.clearStateChanged }
  else some g

/-- The loop `while (Window.pollEvent(event)) { ... }`; a closed window has no events. -/
def Game.pollEvents {B : Type} (ops : ButtonOps B) (mousePos : Vector2f) :
    List Event → Game B → Game B
  | [], g => g
  | e :: rest, g =>
    if g.windowOpen then
      let g1 : Game B :=
        match e with
        | .Closed => { g with windowOpen := false }
        | .Resized width height =>
          { g with windowSize := ⟨width, height⟩,
                   gameState := g.gameState.setWindowSize ⟨width, height⟩ }
        | _ => g
      Game.pollEvents ops mousePos rest
        { g1 with gameState := g1.gameState.ManageEvent ops e mousePos }
    else g

/-- One pass of the body of `while (Window.isOpen())` in `Game::Logic` (rendering
left out). -/
def Game.frame {B : Type} (ops : ButtonOps B) (circleBounds : FloatRect) (g : Game B)
    (inp : FrameInput) : Option (Game B) :=
  match g.swapScreen ops circleBounds inp.uninit inp.fuel with
  | none => none
  | some g1 =>
    let clk := Game.clockStep g1.initDt inp.elapsed
    let g2 := Game.pollEvents ops inp.mousePos inp.events { g1 with initDt := clk.initDt }
    match (g2.gameState.Input inp.pressed).Logic clk.dt g2.world with
    | none => none
    | some (screen, w) => some { g2 with gameState := screen, world := w }

/-- The states of the game that `main` can reach: `Game game({800, 600}, "Game")`
followed by passes of the loop while the window is open. -/
inductive Game.Reachable {B : Type} (ops : ButtonOps B) (circleBounds : FloatRect) :
    Game B → Prop where
  | init (u : Uninit) (w : World) : Game.Reachable ops circleBounds (Game.new ops ⟨800, 600⟩ u w)
  | step (g g1 : Game B) (inp : FrameInput) :
      Game.Reachable ops circleBounds g → g.windowOpen = true →
      Game.frame ops circleBounds g inp = some g1 → Game.Reachable ops circleBounds g1

/-- The edges of the screen state machine, from the class of the active screen to
the requested `state`. -/
def allowedEdge : StateId → StateId → Bool
  | .Menu, .Play => true
  | .Menu, .HighScore => true
  | .Menu, .Quit => true
  | .Play, .Menu => true
  | .HighScore, .Menu => true
  | _, _ => false

/-- What the loop keeps true of the active screen: a menu has its three buttons, and
a pending request (`isStateChanged`) follows an edge of the state machine. -/
def Screen.wellFormed {B : Type} (screen : Screen B) : Prop :=
  (∀ s, screen = .menu s → s.buttons.length = 3) ∧
  (screen.isStateChanged = true → allowedEdge screen.kind screen.state = true)

/-- The states of a Play session that follow `start`: any sequence of calls of
`PlayState::Input` and of `PlayState::Logic(dt)` with frame times `dt` that satisfy
`ok`, in any world. -/
inductive PlayState.Reachable (ok : ℚ → Prop) (start : PlayState) : PlayState → Prop where
  | start : PlayState.Reachable ok start start
  | input (s : PlayState) (pressed : Bool) :
      PlayState.Reachable ok start s → PlayState.Reachable ok start (s.Input pressed)
  | logic (s s1 : PlayState) (dt : ℚ) (w : World) :
      PlayState.Reachable ok start s → ok dt → (s.Logic dt w).map Prod.fst = some s1 →
      PlayState.Reachable ok start s1


/-! ## Concrete inputs used in the examples -/

/-- The bounding square of a circle of radius 16, as local bounds. -/
def exampleBounds : FloatRect := ⟨0, 0, 32, 32⟩

/-- Some contents for the uninitialised memory. -/
def exampleUninit : Uninit := ⟨.Quit, fun _ => 0, 0⟩

/-- A world in which `rand()` always returns 80, `files/scores.txt` does not exist
yet and can be created. -/
def exampleWorld : World := ⟨fun _ => 80, none, true⟩

/-- The pair that `Initialize` builds at `x` in a window of height 600 when `rand()`
returns 80: top pipe of height 155, gap from 155 to 280, bottom pipe of height 320. -/
def examplePairAt (x : ℚ) : PipePair :=
  { pipes := (Pipe.new ⟨x, 0⟩ ⟨50, 155⟩, Pipe.new ⟨x, 280⟩ ⟨50, 320⟩),
    rectBetweenPipes := ⟨x, 155, 50, 125⟩, speed := 100 }

/-- The Play session that the constructor builds in `exampleWorld`. -/
def exampleStart : PlayState :=
  { windowSize := ⟨800, 600⟩, state := .Quit, isStateChanged := false,
    circle := { position := ⟨25, 25⟩, localBounds := exampleBounds },
    velocity := ⟨0, 0⟩, jumpSpeed := 350, gSpeed := 50, gMax := 400,
    initWindowSize := ⟨800, 600⟩, score := 0, isHit := false, scores := [],
    pipePairs := [examplePairAt 1000, examplePairAt 832, examplePairAt 664,
                  examplePairAt 496, examplePairAt 328] }

/-- The session of `exampleStart` with the player lower, at `y = 300`: the box from
300 to 332 is below every gap (155 to 280) and beside the bottom pipes only. -/
def exampleLowStart : PlayState :=
  { exampleStart with circle := { position := ⟨25, 300⟩, localBounds := exampleBounds } }

/-- Buttons without content: every position is inside every button. -/
def exampleOps : ButtonOps Unit :=
  { make := fun _ _ _ _ _ => (), Logic := fun b _ _ => b, IsPositionInBounds := fun _ _ => true }

/-- A frame in which the left mouse button is pressed. -/
def exampleClick : FrameInput :=
  { elapsed := 1 / 64, mousePos := ⟨400, 400⟩, events := [.MouseButtonPressed Mouse.Left],
    pressed := false, uninit := exampleUninit, fuel := 0 }

/-- A pair whose gap rectangle leaves the window on the left within the next 1/64 s. -/
def exampleLeavingPair : PipePair :=
  { pipes := (Pipe.new ⟨-99 / 2, 0⟩ ⟨50, 155⟩, Pipe.new ⟨-99 / 2, 280⟩ ⟨50, 320⟩),
    rectBetweenPipes := ⟨-99 / 2, 155, 50, 125⟩, speed := 100 }

/-- What is observed of a Play state for the pair at index `i`: `score`, `isHit`, the
bounding box of the player and the gap rectangle of the pair. -/
def PlayState.observe (i : Nat) (s : PlayState) : Int × Bool × FloatRect × Option FloatRect :=
  (s.score, s.isHit, s.circle.getGlobalBounds,
    (s.pipePairs.get? i).map (fun p => p.rectBetweenPipes))

/-- The observations after each of the successive calls `Logic(dt)`, `dt` in `dts`. -/
def PlayState.runObserve (i : Nat) :
    List ℚ → PlayState → World → Option (List (Int × Bool × FloatRect × Option FloatRect))
  | [], _, _ => some []
  | dt :: rest, s, w =>
    match s.Logic dt w with
    | none => none
    | some (s1, w1) =>
      match PlayState.runObserve i rest s1 w1 with
      | none => none
      | some obs => some (s1.observe i :: obs)

/-! ## Score persistence: lemmas -/

theorem writeLoop_eq_persistedFormat (scores : List Int) :
    ∀ n, n ≤ scores.length → writeLoop scores n = persistedFormat (scores.take n) := by
  intro n
  induction n with
  | zero => intro _; simp [writeLoop, persistedFormat]
  | succ k ih =>
    intro hk
    have hk1 : k < scores.length := hk
    have ih1 := ih (Nat.le_of_lt hk1)
    unfold writeLoop at ih1 ⊢
    rw [List.range_succ, List.foldl_append, ih1]
    simp only [List.foldl_cons, List.foldl_nil]
    have ht : scores.take (k + 1) = scores.take k ++ [scores[k]] := by
      rw [List.take_succ, List.getElem?_eq_getElem hk1]; rfl
    rw [ht]
    unfold persistedFormat
    rw [List.flatMap_append]
    have hg : scores.getD k 0 = scores[k] := by
      simp [List.getD, List.getElem?_eq_getElem hk1]
    simp only [hg, List.flatMap_cons, List.flatMap_nil, List.append_nil]

theorem sortDescending_perm (scores : List Int) : (sortDescending scores).Perm scores :=
  List.perm_insertionSort _ scores

theorem sortDescending_sorted (scores : List Int) :
    (sortDescending scores).Sorted (fun a b => b ≤ a) := by
  haveI : IsTotal Int (fun a b => b ≤ a) := ⟨fun a b => le_total b a⟩
  haveI : IsTrans Int (fun a b => b ≤ a) := ⟨fun _ _ _ h1 h2 => le_trans h2 h1⟩
  exact List.sorted_insertionSort _ scores

theorem writeBound_eq (scores : List Int) : writeBound scores = min scores.length 10 := by
  unfold writeBound
  split <;> omega

/-- C1: when the file can be opened, `SaveScores` writes, one per line, the first
`min(|scores|, 10)` elements of `scores` sorted in non-increasing order: the vector
after the call is a non-increasing permutation `written ++ rest` of `scores`, the
file holds exactly `written`, at most 10 lines, and every value written is at least
every value left out.  For `[3,50,10,50,7,1,1,1,1,1,1,1]` the lines are
`50,50,10,7,3,1,1,1,1,1`. -/
theorem SaveScores_writes_top_ten (scores : List Int) :
    (∃ written rest : List Int,
      (SaveScores true scores).2 = some (persistedFormat written) ∧
      (SaveScores true scores).1 = written ++ rest ∧
      (written ++ rest).Perm scores ∧
      (written ++ rest).Sorted (fun a b => b ≤ a) ∧
      written.length = min scores.length 10 ∧
      written.length ≤ 10 ∧
      written.Sorted (fun a b => b ≤ a) ∧
      (∀ a ∈ written, ∀ b ∈ rest, b ≤ a)) ∧
    (SaveScores true [3, 50, 10, 50, 7, 1, 1, 1, 1, 1, 1, 1]).2
      = some (persistedFormat [50, 50, 10, 7, 3, 1, 1, 1, 1, 1]) ∧
    persistedFormat [50, 50, 10, 7, 3, 1, 1, 1, 1, 1]
      = ("50\n50\n10\n7\n3\n1\n1\n1\n1\n1\n").data := by
  refine ⟨?_, by decide, by decide⟩
  have hlen : (sortDescending scores).length = scores.length :=
    (sortDescending_perm scores).length_eq
  have hsplit : (sortDescending scores).take (writeBound (sortDescending scores))
      ++ (sortDescending scores).drop (writeBound (sortDescending scores))
      = sortDescending scores := List.take_append_drop _ _
  have hb : writeBound (sortDescending scores) ≤ (sortDescending scores).length := by
    rw [writeBound_eq]; exact Nat.min_le_left _ _
  refine ⟨(sortDescending scores).take (writeBound (sortDescending scores)),
    (sortDescending scores).drop (writeBound (sortDescending scores)), ?_, ?_, ?_, ?_, ?_, ?_, ?_, ?_⟩
  · simp [SaveScores, writeLoop_eq_persistedFormat _ _ hb]
  · simp [SaveScores]
  · rw [hsplit]; exact sortDescending_perm scores
  · rw [hsplit]; exact sortDescending_sorted scores
  · rw [List.length_take, writeBound_eq, hlen]; omega
  · rw [List.length_take, writeBound_eq]; omega
  · have h := sortDescending_sorted scores
    rw [← hsplit] at h
    exact (List.pairwise_append.mp h).1
  · have h := sortDescending_sorted scores
    rw [← hsplit] at h
    intro a ha b hb
    exact (List.pairwise_append.mp h).2.2 a ha b hb

/-! ## Reading back the persisted format -/

theorem digitChar_spec (k : Nat) (hk : k < 10) :
    (Nat.digitChar k).isDigit = true ∧ (Nat.digitChar k).toNat - '0'.toNat = k := by
  interval_cases k <;> exact ⟨by decide, by decide⟩

theorem digitsValue_append (l : List Char) (d : Char) :
    digitsValue (l ++ [d]) = 10 * digitsValue l + (d.toNat - '0'.toNat) := by
  unfold digitsValue
  rw [List.foldl_append]
  rfl

/-- The digits that `Nat.toDigitsCore` puts in front of `ds`: a non-empty run of decimal
digits whose value is `n`. -/
theorem toDigitsCore_spec :
    ∀ (fuel n : Nat) (ds : List Char), n < fuel →
      ∃ l, Nat.toDigitsCore 10 fuel n ds = l ++ ds ∧ l ≠ [] ∧
        (∀ c ∈ l, c.isDigit = true) ∧ digitsValue l = n := by
  intro fuel
  induction fuel with
  | zero => intro n ds h; exact absurd h (Nat.not_lt_zero n)
  | succ fuel ih =>
    intro n ds h
    obtain ⟨hd1, hd2⟩ := digitChar_spec (n % 10) (Nat.mod_lt n (by decide))
    unfold Nat.toDigitsCore
    simp only
    by_cases h0 : n / 10 = 0
    · rw [if_pos h0]
      refine ⟨[Nat.digitChar (n % 10)], rfl, by simp, ?_, ?_⟩
      · intro c hc
        simp only [List.mem_singleton] at hc
        rw [hc]; exact hd1
      · have := digitsValue_append [] (Nat.digitChar (n % 10))
        simp only [List.nil_append] at this
        rw [this, hd2]
        simp only [digitsValue, List.foldl_nil]
        omega
    · rw [if_neg h0]
      have hlt : n / 10 < fuel := by omega
      obtain ⟨l, hl, -, hdig, hval⟩ := ih (n / 10) (Nat.digitChar (n % 10) :: ds) hlt
      refine ⟨l ++ [Nat.digitChar (n % 10)], ?_, by simp, ?_, ?_⟩
      · rw [hl]; simp
      · intro c hc
        rcases List.mem_append.mp hc with hc | hc
        · exact hdig c hc
        · simp only [List.mem_singleton] at hc
          rw [hc]; exact hd1
      · rw [digitsValue_append, hval, hd2]
        omega

theorem formatInt_ofNat (m : Nat) : formatInt (Int.ofNat m) = Nat.toDigits 10 m := rfl

theorem formatInt_negSucc (m : Nat) :
    formatInt (Int.negSucc m) = '-' :: Nat.toDigits 10 (m + 1) := rfl


theorem formatInt_spec (v : Int) :
    ∃ l, l ≠ [] ∧ (∀ c ∈ l, c.isDigit = true) ∧
      ((0 ≤ v ∧ formatInt v = l ∧ (digitsValue l : Int) = v) ∨
       (v < 0 ∧ formatInt v = '-' :: l ∧ -(digitsValue l : Int) = v)) := by
  cases v with
  | ofNat m =>
    obtain ⟨l, hl, hne, hdig, hval⟩ := toDigitsCore_spec (m + 1) m [] (Nat.lt_succ_self m)
    rw [List.append_nil] at hl
    refine ⟨l, hne, hdig, Or.inl ⟨Int.ofNat_nonneg m, ?_, ?_⟩⟩
    · rw [formatInt_ofNat]; exact hl
    · rw [hval]; rfl
  | negSucc m =>
    obtain ⟨l, hl, hne, hdig, hval⟩ :=
      toDigitsCore_spec (m + 1 + 1) (m + 1) [] (Nat.lt_succ_self (m + 1))
    rw [List.append_nil] at hl
    refine ⟨l, hne, hdig, Or.inr ⟨Int.negSucc_lt_zero m, ?_, ?_⟩⟩
    · rw [formatInt_negSucc]; exact congrArg _ hl
    · rw [hval]; rfl

theorem isDigit_not_special (c : Char) (h : c.isDigit = true) :
    isSpace c = false ∧ c ≠ '-' ∧ c ≠ '+' ∧ c ≠ '\n' := by
  refine ⟨?_, ?_, ?_, ?_⟩
  · cases hs : isSpace c with
    | false => rfl
    | true =>
      simp only [isSpace, Bool.or_eq_true, decide_eq_true_eq] at hs
      rcases hs with ((((rfl | rfl) | rfl) | rfl) | rfl) | rfl <;> exact absurd h (by decide)
  · rintro rfl; exact absurd h (by decide)
  · rintro rfl; exact absurd h (by decide)
  · rintro rfl; exact absurd h (by decide)

theorem dropWhile_isSpace_prefix (pre : List Char) (c : Char) (cs : List Char)
    (hpre : ∀ x ∈ pre, isSpace x = true) (hc : isSpace c = false) :
    (pre ++ c :: cs).dropWhile isSpace = c :: cs := by
  induction pre with
  | nil => simp [List.dropWhile, hc]
  | cons x xs ih =>
    have hx : isSpace x = true := hpre x (List.mem_cons_self x xs)
    simp only [List.cons_append, List.dropWhile, hx]
    exact ih (fun y hy => hpre y (List.mem_cons_of_mem x hy))

theorem takeWhile_isDigit_run (l rest : List Char) (hl : ∀ c ∈ l, c.isDigit = true) :
    (l ++ '\n' :: rest).takeWhile Char.isDigit = l ∧
    (l ++ '\n' :: rest).dropWhile Char.isDigit = '\n' :: rest := by
  induction l with
  | nil =>
    have h : Char.isDigit '\n' = false := by decide
    simp [List.takeWhile, List.dropWhile, h]
  | cons x xs ih =>
    have hx : x.isDigit = true := hl x (List.mem_cons_self x xs)
    obtain ⟨i1, i2⟩ := ih (fun y hy => hl y (List.mem_cons_of_mem x hy))
    simp only [List.cons_append, List.takeWhile, List.dropWhile, hx]
    exact ⟨congrArg _ i1, i2⟩

/-- Extraction of an integer written by `SaveScores`: from a good stream whose unread
rest is white space, the text of `v`, a newline and anything, `reader >> value`
stores `v` and stops in front of the newline, the stream still good. -/
theorem extractInt_formatInt (pre rest : List Char) (v value : Int)
    (hpre : ∀ x ∈ pre, isSpace x = true) (hlo : INT_MIN ≤ v) (hhi : v ≤ INT_MAX) :
    IfStream.extractInt
        { buf := pre ++ (formatInt v ++ '\n' :: rest), eofbit := false, failbit := false } value
      = ({ buf := '\n' :: rest, eofbit := false, failbit := false }, v) := by
  obtain ⟨l, hne, hdig, hcase⟩ := formatInt_spec v
  obtain ⟨t1, t2⟩ := takeWhile_isDigit_run l rest hdig
  obtain ⟨c, l', rfl⟩ := List.exists_cons_of_ne_nil hne
  have hc : c.isDigit = true := hdig c (List.mem_cons_self c l')
  obtain ⟨hsp, hminus, hplus, -⟩ := isDigit_not_special c hc
  have hnl : (c :: l').isEmpty = false := rfl
  rcases hcase with ⟨-, hf, hval⟩ | ⟨-, hf, hval⟩
  · have hdrop : (pre ++ (formatInt v ++ '\n' :: rest)).dropWhile isSpace
        = c :: (l' ++ '\n' :: rest) := by
      rw [hf]; exact dropWhile_isSpace_prefix pre c _ hpre hsp
    unfold IfStream.extractInt
    simp only [Bool.or_self, Bool.false_eq_true, if_false, hdrop, hminus, hplus, or_self,
      decide_False]
    rw [show c :: (l' ++ '\n' :: rest) = (c :: l') ++ '\n' :: rest from rfl, t1, t2]
    simp only [hnl, Bool.false_eq_true, if_false, hval, List.isEmpty_cons,
      not_lt.mpr hhi, not_lt.mpr hlo]
  · have hsm : isSpace '-' = false := by decide
    have hdrop : (pre ++ (formatInt v ++ '\n' :: rest)).dropWhile isSpace
        = '-' :: ((c :: l') ++ '\n' :: rest) := by
      rw [hf]; exact dropWhile_isSpace_prefix pre '-' _ hpre hsm
    unfold IfStream.extractInt
    simp only [Bool.or_self, Bool.false_eq_true, if_false, hdrop, true_or, if_true,
      decide_True, t1, t2]
    simp only [hnl, Bool.false_eq_true, if_false, hval, List.isEmpty_cons,
      not_lt.mpr hhi, not_lt.mpr hlo]


theorem dropWhile_isSpace_all (pre : List Char) (hpre : ∀ x ∈ pre, isSpace x = true) :
    pre.dropWhile isSpace = [] := by
  induction pre with
  | nil => rfl
  | cons x xs ih =>
    have hx : isSpace x = true := hpre x (List.mem_cons_self x xs)
    simp only [List.dropWhile, hx]
    exact ih (fun y hy => hpre y (List.mem_cons_of_mem x hy))

/-- The read loop on white space followed by the persisted form of `values`: it
returns the integers in file order and then one more element, the indeterminate
content of `value` in the pass that follows the last newline. -/
theorem LoadScores_loop_persisted :
    ∀ (values : List Int) (pre : List Char) (indet : Nat → Int) (acc : List Int),
      (∀ x ∈ pre, isSpace x = true) →
      (∀ v ∈ values, INT_MIN ≤ v ∧ v ≤ INT_MAX) →
      LoadScores.loop (values.length + 2)
          { buf := pre ++ persistedFormat values, eofbit := false, failbit := false } indet acc
        = some (acc ++ values ++ [indet values.length]) := by
  intro values
  induction values with
  | nil =>
    intro pre indet acc hpre _
    have hd := dropWhile_isSpace_all pre hpre
    simp only [persistedFormat, List.flatMap_nil, List.append_nil, List.length_nil, Nat.zero_add]
    unfold LoadScores.loop
    simp only [Bool.false_eq_true, if_false]
    unfold IfStream.extractInt
    simp only [Bool.or_self, Bool.false_eq_true, if_false, hd]
    unfold LoadScores.loop
    simp
  | cons v vs ih =>
    intro pre indet acc hpre hrange
    obtain ⟨hlo, hhi⟩ := hrange v (List.mem_cons_self v vs)
    have hbuf : pre ++ persistedFormat (v :: vs)
        = pre ++ (formatInt v ++ '\n' :: persistedFormat vs) := by
      simp [persistedFormat]
    have hstep := extractInt_formatInt pre (persistedFormat vs) v (indet 0) hpre hlo hhi
    have hih := ih ['\n'] (fun n => indet (n + 1)) (acc ++ [v])
      (fun x hx => by
        simp only [List.mem_singleton] at hx
        rw [hx]; decide)
      (fun x hx => hrange x (List.mem_cons_of_mem v hx))
    rw [hbuf]
    simp only [List.length_cons]
    rw [show vs.length + 1 + 2 = (vs.length + 2) + 1 from rfl]
    unfold LoadScores.loop
    simp only [Bool.false_eq_true, if_false, hstep]
    rw [show ('\n' :: persistedFormat vs) = ['\n'] ++ persistedFormat vs from rfl, hih]
    simp

/-- C2: `LoadScores` does not return exactly the stored integers.  For every list
of `int` values in the persisted format (each followed by a newline), loading into
an empty vector returns the integers in file order and then one element more: the
indeterminate content of the uninitialised local `value`, pushed by the pass of
`while (!reader.eof())` that follows the last newline.  The same holds for the
file `SaveScores` has just written.  For the scores `[10, 50]` the file is
`50\n10\n` and three elements are loaded; for no scores the file is empty and one
element is loaded. -/
theorem LoadScores_after_SaveScores_extra_element :
    (∀ (values : List Int) (indet : Nat → Int),
      (∀ v ∈ values, INT_MIN ≤ v ∧ v ≤ INT_MAX) →
      LoadScores (values.length + 2) (some (persistedFormat values)) indet []
        = some (values ++ [indet values.length])) ∧
    (∀ (scores : List Int) (indet : Nat → Int),
      (∀ v ∈ scores, INT_MIN ≤ v ∧ v ≤ INT_MAX) →
      ∃ written,
        (SaveScores true scores).2 = some (persistedFormat written) ∧
        LoadScores (written.length + 2) (SaveScores true scores).2 indet []
          = some (written ++ [indet written.length])) ∧
    (∀ indet : Nat → Int,
      (SaveScores true [10, 50]).2 = some ("50\n10\n").data ∧
      LoadScores 4 (SaveScores true [10, 50]).2 indet [] = some [50, 10, indet 2] ∧
      (SaveScores true []).2 = some [] ∧
      LoadScores 2 (SaveScores true []).2 indet [] = some [indet 0]) := by
  have general : ∀ (values : List Int) (indet : Nat → Int),
      (∀ v ∈ values, INT_MIN ≤ v ∧ v ≤ INT_MAX) →
      LoadScores (values.length + 2) (some (persistedFormat values)) indet []
        = some (values ++ [indet values.length]) := by
    intro values indet hrange
    have h := LoadScores_loop_persisted values [] indet [] (fun x hx => nomatch hx) hrange
    simpa [LoadScores] using h
  refine ⟨general, ?_, ?_⟩
  · intro scores indet hrange
    have hb : writeBound (sortDescending scores) ≤ (sortDescending scores).length := by
      rw [writeBound_eq]; exact Nat.min_le_left _ _
    have hw : (SaveScores true scores).2
        = some (persistedFormat ((sortDescending scores).take
            (writeBound (sortDescending scores)))) := by
      simp [SaveScores, writeLoop_eq_persistedFormat _ _ hb]
    refine ⟨_, hw, ?_⟩
    rw [hw]
    apply general
    intro v hv
    exact hrange v ((sortDescending_perm scores).mem_iff.mp (List.mem_of_mem_take hv))
  · intro indet
    have h1 : (SaveScores true [10, 50]).2 = some (persistedFormat [50, 10]) := by decide
    have h2 : (SaveScores true []).2 = some (persistedFormat []) := by decide
    refine ⟨by decide, ?_, by decide, ?_⟩
    · rw [h1]
      exact general [50, 10] indet (by decide)
    · rw [h2]
      exact general [] indet (by decide)

/-! ## Heights of a pipe pair -/

theorem truncToInt_intCast (n : Int) : truncToInt (n : ℚ) = n := by
  unfold truncToInt
  split
  · rw [Rat.floor_def', Rat.intCast_num, Rat.intCast_den]; exact Int.ediv_one n
  · rw [Rat.floor_def', ← Int.cast_neg, Rat.intCast_num, Rat.intCast_den]
    rw [show ((1 : Nat) : Int) = 1 from rfl, Int.ediv_one, neg_neg]

theorem distancePipesY_cast : ((Pipe.distancePipesY : Int) : ℚ) = 125 := by
  norm_num [Pipe.distancePipesY]

theorem truncToInt_maxHeight (H : Nat) (hH : 275 < H) :
    truncToInt ((H : ℚ) - 275) = ((H - 275 : Nat) : Int) := by
  have h : ((H : ℚ) - 275) = (((H - 275 : Nat) : Int) : ℚ) := by
    push_cast [Nat.cast_sub (Nat.le_of_lt hH)]; ring
  rw [h, truncToInt_intCast]

/-- The heights drawn for a window higher than 275: with `k = r % (H - 275)`, the top
height is `k + 75` and the argument of `fabs` is positive, so the bottom height is
`H - (k + 75 + 125)`. -/
theorem CalculateHeights_of_gt (W H r : Nat) (hH : 275 < H) :
    Pipe.CalculateHeights 75 ((H : ℚ) - 275) ⟨W, H⟩ r
      = some (((r % (H - 275) : Nat) : ℚ) + 75,
              (H : ℚ) - ((((r % (H - 275) : Nat) : ℚ) + 75) + 125)) := by
  have hm : 0 < H - 275 := Nat.sub_pos_of_lt hH
  have hk : r % (H - 275) < H - 275 := Nat.mod_lt _ hm
  have hmod : (r : Int).tmod ((H - 275 : Nat) : Int) = ((r % (H - 275) : Nat) : Int) := by
    rw [Int.tmod_eq_emod (Int.ofNat_nonneg r) (Int.ofNat_nonneg _)]
    exact (Int.natCast_mod r (H - 275)).symm
  have hne : ((H - 275 : Nat) : Int) ≠ 0 := by omega
  unfold Pipe.CalculateHeights
  rw [truncToInt_maxHeight H hH, if_neg hne, hmod]
  have hkq : ((r % (H - 275) : Nat) : ℚ) + 275 < (H : ℚ) := by
    have : r % (H - 275) + 275 < H := by omega
    exact_mod_cast this
  have hpos : 0 < (H : ℚ) - ((((r % (H - 275) : Nat) : ℚ) + 75) + 125) := by linarith
  simp only [distancePipesY_cast, Int.cast_natCast]
  rw [abs_of_pos hpos]

/-- The pair that `Initialize` builds from the heights drawn. -/
theorem Initialize_of_heights (self : PipePair) (position : Vector2f) (windowSize : Vector2u)
    (r : Nat) (heights : ℚ × ℚ)
    (hc : Pipe.CalculateHeights 75 ((windowSize.y : ℚ) - 275) windowSize r = some heights) :
    self.Initialize position windowSize r
      = some { pipes := (Pipe.new position ⟨50, heights.1⟩,
                  Pipe.new ⟨position.x, position.y + (Pipe.distancePipesY : ℚ) + heights.1⟩
                    ⟨50, heights.2⟩),
               rectBetweenPipes :=
                  ⟨position.x, position.y + heights.1, 50, (Pipe.distancePipesY : ℚ)⟩,
               speed := self.speed } := by
  unfold PipePair.Initialize
  rw [hc]

/-- C6: for every window height `H > 275` and every value `r` of `rand()`,
`PipePair::Initialize` succeeds and the heights of the two pipes sum to `H - 125`;
the argument of the absolute value in `CalculateHeights` is positive (no sign is
flipped), and the bottom pipe ends `H` below the given position, that is at the
bottom edge of the window for the position `y = 0` that both callers pass. -/
theorem Initialize_heights_sum (self : PipePair) (position : Vector2f) (W H r : Nat)
    (hH : 275 < H) :
    ∃ p heights,
      Pipe.CalculateHeights 75 ((H : ℚ) - 275) ⟨W, H⟩ r = some heights ∧
      self.Initialize position ⟨W, H⟩ r = some p ∧
      p.pipes.1.pipeSize.y = heights.1 ∧ p.pipes.2.pipeSize.y = heights.2 ∧
      p.pipes.1.pipeSize.y + p.pipes.2.pipeSize.y = (H : ℚ) - (Pipe.distancePipesY : ℚ) ∧
      (Pipe.distancePipesY : ℚ) = 125 ∧
      0 < (H : ℚ) - (heights.1 + (Pipe.distancePipesY : ℚ)) ∧
      p.pipes.2.position.y + p.pipes.2.pipeSize.y = position.y + (H : ℚ) ∧
      p.pipes.2.bounds.top + p.pipes.2.bounds.height = position.y + (H : ℚ) ∧
      (position.y = 0 → p.pipes.2.bounds.top + p.pipes.2.bounds.height = (H : ℚ)) := by
  have hc := CalculateHeights_of_gt W H r hH
  have hk : r % (H - 275) < H - 275 := Nat.mod_lt _ (Nat.sub_pos_of_lt hH)
  have hkq : ((r % (H - 275) : Nat) : ℚ) + 275 < (H : ℚ) := by
    have : r % (H - 275) + 275 < H := by omega
    exact_mod_cast this
  refine ⟨_, _, hc, Initialize_of_heights self position ⟨W, H⟩ r _ hc, ?_⟩
  simp only [Pipe.new, FloatRect.ofPosSize, distancePipesY_cast]
  refine ⟨trivial, trivial, ?_, trivial, ?_, ?_, ?_, fun h0 => ?_⟩ <;> linarith

/-- The game's window and the value 324 of `rand()`: heights 399 and 76. -/
theorem Initialize_heights_sum_witness :
    ∃ p heights,
      Pipe.CalculateHeights 75 (((600 : Nat) : ℚ) - 275) ⟨800, 600⟩ 324 = some heights ∧
      (PipePair.default 0).Initialize ⟨800, 0⟩ ⟨800, 600⟩ 324 = some p ∧
      p.pipes.1.pipeSize.y = heights.1 ∧ p.pipes.2.pipeSize.y = heights.2 ∧
      p.pipes.1.pipeSize.y + p.pipes.2.pipeSize.y = ((600 : Nat) : ℚ) - (Pipe.distancePipesY : ℚ) ∧
      (Pipe.distancePipesY : ℚ) = 125 ∧
      0 < ((600 : Nat) : ℚ) - (heights.1 + (Pipe.distancePipesY : ℚ)) ∧
      p.pipes.2.position.y + p.pipes.2.pipeSize.y = (0 : ℚ) + ((600 : Nat) : ℚ) ∧
      p.pipes.2.bounds.top + p.pipes.2.bounds.height = (0 : ℚ) + ((600 : Nat) : ℚ) ∧
      ((0 : ℚ) = 0 → p.pipes.2.bounds.top + p.pipes.2.bounds.height = ((600 : Nat) : ℚ)) :=
  Initialize_heights_sum (PipePair.default 0) ⟨800, 0⟩ 800 600 324 (by decide)

/-- C10 as stated fails: in the game's window of height 600 the value 324 of `rand()`
gives the top pipe the height 399, which is not below `maxHeight = 325`. -/
theorem Initialize_top_height_exceeds_maxHeight :
    Pipe.CalculateHeights 75 (((600 : Nat) : ℚ) - 275) ⟨800, 600⟩ 324 = some (399, 76) ∧
    (∃ p, (PipePair.default 0).Initialize ⟨800, 0⟩ ⟨800, 600⟩ 324 = some p ∧
      p.pipes.1.pipeSize.y = 399) ∧
    ¬ ((399 : ℚ) < ((600 : Nat) : ℚ) - 275) := by
  have hc : Pipe.CalculateHeights 75 (((600 : Nat) : ℚ) - 275) ⟨800, 600⟩ 324
      = some (399, 76) := by decide!
  exact ⟨hc, ⟨_, Initialize_of_heights (PipePair.default 0) ⟨800, 0⟩ ⟨800, 600⟩ 324 _ hc, rfl⟩,
    by norm_num⟩

/-- C10 amended: for every window height `H > 275` and every value `r` of `rand()`,
the top-pipe height `h1` that `PipePair::Initialize` obtains from
`Pipe::CalculateHeights(75, H - 275, windowSize)` lies in
`[minHeight, minHeight + maxHeight) = [75, H - 200)`. -/
theorem Initialize_top_height_range (self : PipePair) (position : Vector2f) (W H r : Nat)
    (hH : 275 < H) :
    ∃ p heights,
      Pipe.CalculateHeights 75 ((H : ℚ) - 275) ⟨W, H⟩ r = some heights ∧
      self.Initialize position ⟨W, H⟩ r = some p ∧
      p.pipes.1.pipeSize.y = heights.1 ∧
      75 ≤ heights.1 ∧ heights.1 < 75 + ((H : ℚ) - 275) ∧ heights.1 < (H : ℚ) - 200 := by
  have hc := CalculateHeights_of_gt W H r hH
  have hk : r % (H - 275) < H - 275 := Nat.mod_lt _ (Nat.sub_pos_of_lt hH)
  have hkq : ((r % (H - 275) : Nat) : ℚ) + 275 < (H : ℚ) := by
    have : r % (H - 275) + 275 < H := by omega
    exact_mod_cast this
  have h0 : (0 : ℚ) ≤ ((r % (H - 275) : Nat) : ℚ) := Nat.cast_nonneg _
  refine ⟨_, _, hc, Initialize_of_heights self position ⟨W, H⟩ r _ hc, ?_⟩
  simp only [Pipe.new]
  refine ⟨trivial, ?_, ?_, ?_⟩ <;> linarith

/-- The game's window and the value 324 of `rand()`: top height 399, below 400. -/
theorem Initialize_top_height_range_witness :
    ∃ p heights,
      Pipe.CalculateHeights 75 (((600 : Nat) : ℚ) - 275) ⟨800, 600⟩ 324 = some heights ∧
      (PipePair.default 0).Initialize ⟨800, 0⟩ ⟨800, 600⟩ 324 = some p ∧
      p.pipes.1.pipeSize.y = heights.1 ∧
      75 ≤ heights.1 ∧ heights.1 < 75 + (((600 : Nat) : ℚ) - 275) ∧
      heights.1 < ((600 : Nat) : ℚ) - 200 :=
  Initialize_top_height_range (PipePair.default 0) ⟨800, 0⟩ 800 600 324 (by decide)

/-! ## Frame time -/

/-- C9: the `dt` computed by `Game::Logic` is the plain difference of the two clock
readings; the comparison with `0.25` changes `newDt`, which is not read again.
With the previous reading 0 and the current reading 1 the `dt` passed on is 1,
above 0.25: in such a frame the Play screen moves the player by `velocity.y * 1`,
from `y = 25` to `y = 75`. -/
theorem clockStep_dt_not_clamped :
    (∀ initDt elapsed : ℚ, (Game.clockStep initDt elapsed).dt = elapsed - initDt) ∧
    (0 : ℚ) ≤ 1 ∧ (Game.clockStep 0 1).dt = 1 ∧ (Game.clockStep 0 1).newDt = 1 / 4 ∧
    ¬ ((Game.clockStep 0 1).dt ≤ 1 / 4) ∧
    (Game.frame exampleOps exampleBounds
        { windowOpen := true, windowSize := ⟨800, 600⟩, gameState := .play exampleStart,
          initDt := 0, world := exampleWorld }
        { elapsed := 1, mousePos := ⟨0, 0⟩, events := [], pressed := false,
          uninit := exampleUninit, fuel := 0 }).map
      (fun g => match g.gameState with
        | .play s => some (s.velocity.y, s.circle.position.y)
        | _ => none)
      = some (some (50, 25 + 50 * 1)) := by
  refine ⟨fun _ _ => rfl, by norm_num, by decide!, by decide!, by decide!, by decide!⟩


/-! ## Recycling of a pipe pair -/

theorem truncToInt_natCast_sub (H : Nat) : truncToInt ((H : ℚ) - 275) = (H : Int) - 275 := by
  have h : ((H : ℚ) - 275) = (((H : Int) - 275 : Int) : ℚ) := by push_cast; ring
  rw [h, truncToInt_intCast]

theorem CalculateHeights_eq_none (W H r : Nat) (hH : H = 275) :
    Pipe.CalculateHeights 75 ((H : ℚ) - 275) ⟨W, H⟩ r = none := by
  unfold Pipe.CalculateHeights
  rw [truncToInt_natCast_sub, if_pos (by omega)]

theorem CalculateHeights_isSome (W H r : Nat) (hH : H ≠ 275) :
    ∃ heights, Pipe.CalculateHeights 75 ((H : ℚ) - 275) ⟨W, H⟩ r = some heights := by
  unfold Pipe.CalculateHeights
  rw [truncToInt_natCast_sub, if_neg (by omega)]
  exact ⟨_, rfl⟩

/-- The result of `PipePair::Logic` for a pair whose shifted gap rectangle is off the
left edge, given the heights drawn. -/
theorem PipePair_Logic_of_left (self : PipePair) (windowSize : Vector2u) (dt : ℚ)
    (rands : RandStream) (heights : ℚ × ℚ)
    (hoff : self.rectBetweenPipes.left - self.speed * dt + self.rectBetweenPipes.width < 0)
    (hc : Pipe.CalculateHeights 75 ((windowSize.y : ℚ) - 275) windowSize (rands 0)
      = some heights) :
    self.Logic windowSize dt rands
      = some ({ pipes := (Pipe.new ⟨(windowSize.x : ℚ), 0⟩ ⟨50, heights.1⟩,
                  Pipe.new ⟨(windowSize.x : ℚ), 0 + (Pipe.distancePipesY : ℚ) + heights.1⟩
                    ⟨50, heights.2⟩),
                rectBetweenPipes :=
                  ⟨(windowSize.x : ℚ), 0 + heights.1, 50, (Pipe.distancePipesY : ℚ)⟩,
                speed := self.speed }, rands.next) := by
  unfold PipePair.Logic
  simp only [PipePair.shifted]
  rw [if_pos hoff, Initialize_of_heights _ _ _ _ _ hc]

/-- C7: `PipePair::Logic` never returns a pair whose gap rectangle is fully left of
the window: every returned gap rectangle has `left + width ≥ 0`.  When the shifted
gap rectangle is not off the left edge the shifted pair is returned.  When it is
(`left - speed*dt + width < 0`), every pair returned has been initialised again in
place: the gap rectangle and both pipes (position and bounds) are at
`x = windowSize.x`, with the heights that `CalculateHeights` draws from the next
value of `rand()`.  In that case the call returns for every window height except
275, where the draw is a remainder by zero. -/
theorem PipePair_Logic_recycles (self : PipePair) (windowSize : Vector2u) (dt : ℚ)
    (rands : RandStream) :
    (∀ p rands1, self.Logic windowSize dt rands = some (p, rands1) →
      0 ≤ p.rectBetweenPipes.left + p.rectBetweenPipes.width) ∧
    (¬ (self.rectBetweenPipes.left - self.speed * dt + self.rectBetweenPipes.width < 0) →
      self.Logic windowSize dt rands = some (self.shifted windowSize dt, rands)) ∧
    (self.rectBetweenPipes.left - self.speed * dt + self.rectBetweenPipes.width < 0 →
      ∀ p rands1, self.Logic windowSize dt rands = some (p, rands1) →
      ∃ heights,
        Pipe.CalculateHeights 75 ((windowSize.y : ℚ) - 275) windowSize (rands 0) = some heights ∧
        rands1 = rands.next ∧
        p.rectBetweenPipes = ⟨(windowSize.x : ℚ), 0 + heights.1, 50, 125⟩ ∧
        p.pipes.1.position = ⟨(windowSize.x : ℚ), 0⟩ ∧
        p.pipes.1.pipeSize = ⟨50, heights.1⟩ ∧
        p.pipes.1.bounds = ⟨(windowSize.x : ℚ), 0, 50, heights.1⟩ ∧
        p.pipes.2.position = ⟨(windowSize.x : ℚ), 0 + 125 + heights.1⟩ ∧
        p.pipes.2.pipeSize = ⟨50, heights.2⟩ ∧
        p.pipes.2.bounds = ⟨(windowSize.x : ℚ), 0 + 125 + heights.1, 50, heights.2⟩ ∧
        p.speed = self.speed) ∧
    (self.rectBetweenPipes.left - self.speed * dt + self.rectBetweenPipes.width < 0 →
      (windowSize.y ≠ 275 → ∃ p, self.Logic windowSize dt rands = some (p, rands.next)) ∧
      (windowSize.y = 275 → self.Logic windowSize dt rands = none)) := by
  obtain ⟨W, H⟩ := windowSize
  have hW : (0 : ℚ) ≤ (W : ℚ) := Nat.cast_nonneg W
  have hnone : self.rectBetweenPipes.left - self.speed * dt + self.rectBetweenPipes.width < 0 →
      H = 275 → self.Logic ⟨W, H⟩ dt rands = none := by
    intro hoff hH
    have hc := CalculateHeights_eq_none W H (rands 0) hH
    unfold PipePair.Logic
    simp only [PipePair.shifted]
    rw [if_pos hoff]
    unfold PipePair.Initialize
    rw [hc]
  have hnot : ¬ (self.rectBetweenPipes.left - self.speed * dt + self.rectBetweenPipes.width < 0) →
      self.Logic ⟨W, H⟩ dt rands = some (self.shifted ⟨W, H⟩ dt, rands) := by
    intro hnot
    unfold PipePair.Logic
    simp only [PipePair.shifted]
    rw [if_neg hnot]
  have hleft : self.rectBetweenPipes.left - self.speed * dt + self.rectBetweenPipes.width < 0 →
      ∀ p rands1, self.Logic ⟨W, H⟩ dt rands = some (p, rands1) →
      ∃ heights,
        Pipe.CalculateHeights 75 ((H : ℚ) - 275) ⟨W, H⟩ (rands 0) = some heights ∧
        rands1 = rands.next ∧
        p = { pipes := (Pipe.new ⟨(W : ℚ), 0⟩ ⟨50, heights.1⟩,
                Pipe.new ⟨(W : ℚ), 0 + (Pipe.distancePipesY : ℚ) + heights.1⟩ ⟨50, heights.2⟩),
              rectBetweenPipes := ⟨(W : ℚ), 0 + heights.1, 50, (Pipe.distancePipesY : ℚ)⟩,
              speed := self.speed } := by
    intro hoff p rands1 hl
    by_cases hH : H = 275
    · rw [hnone hoff hH] at hl
      exact absurd hl (by simp)
    · obtain ⟨heights, hc⟩ := CalculateHeights_isSome W H (rands 0) hH
      rw [PipePair_Logic_of_left self ⟨W, H⟩ dt rands heights hoff hc] at hl
      simp only [Option.some.injEq, Prod.mk.injEq] at hl
      exact ⟨heights, hc, hl.2.symm, hl.1.symm⟩
  refine ⟨?_, hnot, ?_, ?_⟩
  · intro p rands1 hl
    by_cases hoff :
        self.rectBetweenPipes.left - self.speed * dt + self.rectBetweenPipes.width < 0
    · obtain ⟨heights, -, -, rfl⟩ := hleft hoff p rands1 hl
      show (0 : ℚ) ≤ (W : ℚ) + 50
      linarith
    · rw [hnot hoff] at hl
      simp only [Option.some.injEq, Prod.mk.injEq] at hl
      rw [← hl.1]
      exact not_lt.mp hoff
  · intro hoff p rands1 hl
    obtain ⟨heights, hc, hr, rfl⟩ := hleft hoff p rands1 hl
    refine ⟨heights, hc, hr, ?_⟩
    simp only [Pipe.new, FloatRect.ofPosSize, distancePipesY_cast, true_and, and_self]
  · intro hoff
    refine ⟨fun hH => ?_, hnone hoff⟩
    obtain ⟨heights, hc⟩ := CalculateHeights_isSome W H (rands 0) hH
    exact ⟨_, PipePair_Logic_of_left self ⟨W, H⟩ dt rands heights hoff hc⟩

/-- The pair at `x = -49.5` leaves the window in 1/64 s and is initialised again at
`x = 800`; the pair at `x = 328` is only shifted; in a window of height 275 the
call does not return. -/
theorem PipePair_Logic_recycles_witness :
    (exampleLeavingPair.rectBetweenPipes.left - exampleLeavingPair.speed * (1 / 64)
        + exampleLeavingPair.rectBetweenPipes.width < 0 ∧
      (⟨800, 600⟩ : Vector2u).y ≠ 275 ∧
      ∃ p, exampleLeavingPair.Logic ⟨800, 600⟩ (1 / 64) (fun _ => 80)
          = some (p, RandStream.next (fun _ => 80)) ∧
        0 ≤ p.rectBetweenPipes.left + p.rectBetweenPipes.width ∧
        ∃ heights,
          Pipe.CalculateHeights 75 (((⟨800, 600⟩ : Vector2u).y : ℚ) - 275) ⟨800, 600⟩
            ((fun _ => 80 : RandStream) 0) = some heights ∧
          RandStream.next (fun _ => 80) = RandStream.next (fun _ => 80) ∧
          p.rectBetweenPipes = ⟨((⟨800, 600⟩ : Vector2u).x : ℚ), 0 + heights.1, 50, 125⟩ ∧
          p.pipes.1.position = ⟨((⟨800, 600⟩ : Vector2u).x : ℚ), 0⟩ ∧
          p.pipes.1.pipeSize = ⟨50, heights.1⟩ ∧
          p.pipes.1.bounds = ⟨((⟨800, 600⟩ : Vector2u).x : ℚ), 0, 50, heights.1⟩ ∧
          p.pipes.2.position = ⟨((⟨800, 600⟩ : Vector2u).x : ℚ), 0 + 125 + heights.1⟩ ∧
          p.pipes.2.pipeSize = ⟨50, heights.2⟩ ∧
          p.pipes.2.bounds
            = ⟨((⟨800, 600⟩ : Vector2u).x : ℚ), 0 + 125 + heights.1, 50, heights.2⟩ ∧
          p.speed = exampleLeavingPair.speed) ∧
    (¬ ((examplePairAt 328).rectBetweenPipes.left - (examplePairAt 328).speed * (1 / 64)
        + (examplePairAt 328).rectBetweenPipes.width < 0) ∧
      (examplePairAt 328).Logic ⟨800, 600⟩ (1 / 64) (fun _ => 80)
        = some ((examplePairAt 328).shifted ⟨800, 600⟩ (1 / 64), fun _ => 80)) ∧
    ((⟨800, 275⟩ : Vector2u).y = 275 ∧
      exampleLeavingPair.Logic ⟨800, 275⟩ (1 / 64) (fun _ => 80) = none) := by
  have hoff : exampleLeavingPair.rectBetweenPipes.left - exampleLeavingPair.speed * (1 / 64)
      + exampleLeavingPair.rectBetweenPipes.width < 0 := by decide!
  have hnot : ¬ ((examplePairAt 328).rectBetweenPipes.left
      - (examplePairAt 328).speed * (1 / 64)
      + (examplePairAt 328).rectBetweenPipes.width < 0) := by decide!
  refine ⟨⟨hoff, by decide, ?_⟩,
    ⟨hnot, (PipePair_Logic_recycles (examplePairAt 328) ⟨800, 600⟩ (1 / 64)
      (fun _ => 80)).2.1 hnot⟩,
    ⟨rfl, ((PipePair_Logic_recycles exampleLeavingPair ⟨800, 275⟩ (1 / 64)
      (fun _ => 80)).2.2.2 hoff).2 rfl⟩⟩
  obtain ⟨p, hp⟩ := ((PipePair_Logic_recycles exampleLeavingPair ⟨800, 600⟩ (1 / 64)
    (fun _ => 80)).2.2.2 hoff).1 (by decide)
  exact ⟨p, hp,
    (PipePair_Logic_recycles exampleLeavingPair ⟨800, 600⟩ (1 / 64) (fun _ => 80)).1 p _ hp,
    (PipePair_Logic_recycles exampleLeavingPair ⟨800, 600⟩ (1 / 64) (fun _ => 80)).2.2.1
      hoff p _ hp⟩

/-! ## The Play session -/

theorem pipesLoop_cons_some (circle : CircleShape) (windowSize : Vector2u) (dt : ℚ)
    (p : PipePair) (rest : List PipePair) (isHit : Bool) (score : Int) (rands : RandStream)
    (r : PipesLoop)
    (h : PlayState.pipesLoop circle windowSize dt (p :: rest) isHit score rands = some r) :
    ∃ p1 rands1 r1,
      p.Logic windowSize dt rands = some (p1, rands1) ∧
      PlayState.pipesLoop circle windowSize dt rest
        (PlayState.checkPair circle p1 isHit score).1
        (PlayState.checkPair circle p1 isHit score).2 rands1 = some r1 ∧
      r = { r1 with pipePairs := p1 :: r1.pipePairs } := by
  unfold PlayState.pipesLoop at h
  cases hp : p.Logic windowSize dt rands with
  | none => rw [hp] at h; exact absurd h (by simp)
  | some pr =>
    obtain ⟨p1, rands1⟩ := pr
    rw [hp] at h
    simp only at h
    cases hr : PlayState.pipesLoop circle windowSize dt rest
        (PlayState.checkPair circle p1 isHit score).1
        (PlayState.checkPair circle p1 isHit score).2 rands1 with
    | none => rw [hr] at h; exact absurd h (by simp)
    | some r1 =>
      rw [hr] at h
      simp only [Option.some.injEq] at h
      exact ⟨p1, rands1, r1, rfl, hr, h.symm⟩

theorem checkPair_isHit (circle : CircleShape) (pipes : PipePair) (isHit : Bool) (score : Int) :
    (PlayState.checkPair circle pipes isHit score).1
      = (pipes.IsIntersectBounds circle || isHit) := by
  unfold PlayState.checkPair
  by_cases hi : pipes.IsIntersectBounds circle = true
  · simp [hi]
  · simp only [hi, if_false, Bool.false_eq_true]
    split
    · split <;> simp [hi]
    · simp [hi]

/-- What the loop over the pairs returns: every pair of the result is the advanced
version of the pair at the same place, and `isHit` is set exactly when it was set
before or an advanced pair intersects the circle. -/
theorem pipesLoop_spec (circle : CircleShape) (windowSize : Vector2u) (dt : ℚ) :
    ∀ (pairs : List PipePair) (isHit : Bool) (score : Int) (rands : RandStream) (r : PipesLoop),
      PlayState.pipesLoop circle windowSize dt pairs isHit score rands = some r →
      List.Forall₂ (fun p p1 => ∃ ra rb, p.Logic windowSize dt ra = some (p1, rb))
        pairs r.pipePairs ∧
      (r.isHit = true ↔
        isHit = true ∨ ∃ p1 ∈ r.pipePairs, p1.IsIntersectBounds circle = true) := by
  intro pairs
  induction pairs with
  | nil =>
    intro isHit score rands r h
    simp only [PlayState.pipesLoop, Option.some.injEq] at h
    subst h
    simp
  | cons p rest ih =>
    intro isHit score rands r h
    obtain ⟨p1, rands1, r1, hp, hr1, rfl⟩ := pipesLoop_cons_some _ _ _ _ _ _ _ _ _ h
    obtain ⟨hf, hhit⟩ := ih _ _ _ _ hr1
    refine ⟨List.Forall₂.cons ⟨rands, rands1, hp⟩ hf, ?_⟩
    simp only [List.mem_cons, exists_eq_or_imp]
    rw [hhit, checkPair_isHit]
    by_cases hi : p1.IsIntersectBounds circle = true
    · simp [hi]
    · simp [hi]

theorem moveCircle_nonneg (circle : CircleShape) (vy dt : ℚ) :
    0 ≤ (PlayState.moveCircle circle vy dt).position.y := by
  unfold PlayState.moveCircle
  simp only [CircleShape.move, CircleShape.setPosition]
  split
  · exact le_refl _
  · rename_i hneg; exact not_lt.mp hneg

theorem endSession_fields (s : PlayState) (w : World) :
    (PlayState.endSession s w).1.pipePairs = s.pipePairs ∧
    (PlayState.endSession s w).1.isHit = s.isHit ∧
    (PlayState.endSession s w).1.score = s.score ∧
    (PlayState.endSession s w).1.velocity = s.velocity ∧
    (PlayState.endSession s w).1.circle = s.circle ∧
    (PlayState.endSession s w).1.jumpSpeed = s.jumpSpeed ∧
    (PlayState.endSession s w).1.gSpeed = s.gSpeed ∧
    (PlayState.endSession s w).1.gMax = s.gMax ∧
    (PlayState.endSession s w).1.windowSize = s.windowSize ∧
    (PlayState.endSession s w).2.rands = w.rands := by
  unfold PlayState.endSession
  split <;> simp

theorem endSession_request (s : PlayState) (w : World) :
    ((PlayState.endSession s w).1.isStateChanged = s.isStateChanged ∧
      (PlayState.endSession s w).1.state = s.state) ∨
    ((PlayState.endSession s w).1.isStateChanged = true ∧
      (PlayState.endSession s w).1.state = .Menu) := by
  unfold PlayState.endSession
  split
  · exact Or.inr ⟨rfl, rfl⟩
  · exact Or.inl ⟨rfl, rfl⟩

/-- The parts of the result of `PlayState::Logic`. -/
theorem PlayState_Logic_fields (s s1 : PlayState) (dt : ℚ) (w w1 : World)
    (h : s.Logic dt w = some (s1, w1)) :
    ∃ r : PipesLoop,
      s.advancePipes dt w.rands = some r ∧
      s1.pipePairs = r.pipePairs ∧ s1.isHit = r.isHit ∧ s1.score = r.score ∧
      s1.velocity.y = s.fall ∧
      s1.circle = PlayState.moveCircle s.circle s.fall dt ∧
      s1.jumpSpeed = s.jumpSpeed ∧ s1.gSpeed = s.gSpeed ∧ s1.gMax = s.gMax ∧
      s1.windowSize = s.windowSize ∧ w1.rands = r.rands ∧
      ((s1.isStateChanged = s.isStateChanged ∧ s1.state = s.state) ∨
        (s1.isStateChanged = true ∧ s1.state = .Menu)) := by
  unfold PlayState.Logic at h
  cases hr : s.advancePipes dt w.rands with
  | none => rw [hr] at h; exact absurd h (by simp)
  | some r =>
    rw [hr] at h
    simp only [Option.some.injEq] at h
    have h1 : s1 = (PlayState.endSession
      { s with velocity := { s.velocity with y := s.fall }, pipePairs := r.pipePairs,
               isHit := r.isHit, score := r.score,
               circle := PlayState.moveCircle s.circle s.fall dt }
      { w with rands := r.rands }).1 := by rw [h]
    have h2 : w1 = (PlayState.endSession
      { s with velocity := { s.velocity with y := s.fall }, pipePairs := r.pipePairs,
               isHit := r.isHit, score := r.score,
               circle := PlayState.moveCircle s.circle s.fall dt }
      { w with rands := r.rands }).2 := by rw [h]
    obtain ⟨e1, e2, e3, e4, e5, e6, e7, e8, e9, e10⟩ := endSession_fields
      { s with velocity := { s.velocity with y := s.fall }, pipePairs := r.pipePairs,
               isHit := r.isHit, score := r.score,
               circle := PlayState.moveCircle s.circle s.fall dt }
      { w with rands := r.rands }
    have e11 := endSession_request
      { s with velocity := { s.velocity with y := s.fall }, pipePairs := r.pipePairs,
               isHit := r.isHit, score := r.score,
               circle := PlayState.moveCircle s.circle s.fall dt }
      { w with rands := r.rands }
    rw [← h1] at e1 e2 e3 e4 e5 e6 e7 e8 e9 e11
    rw [← h2] at e10
    exact ⟨r, rfl, e1, e2, e3, by rw [e4], e5, e6, e7, e8, e9, e10, e11⟩


/-- The members of a Play session right after its constructor. -/
theorem PlayState_new_fields (circleBounds : FloatRect) (u : Uninit) (fuel : Nat) (w : World)
    (start : PlayState)
    (h : (PlayState.new circleBounds u fuel w).map Prod.fst = some start) :
    start.circle.position = ⟨25, 25⟩ ∧ start.velocity = ⟨0, 0⟩ ∧ start.jumpSpeed = 350 ∧
    start.gSpeed = 50 ∧ start.gMax = 400 ∧ start.score = 0 ∧ start.isHit = false ∧
    start.isStateChanged = false ∧ start.windowSize = ⟨800, 600⟩ := by
  unfold PlayState.new at h
  cases hl : LoadScores fuel w.scoresFile u.value [] with
  | none => rw [hl] at h; exact absurd h (by simp)
  | some scores =>
    rw [hl] at h
    simp only at h
    cases hp : PlayState.initPipePairs ⟨800, 600⟩ u.speed (List.range 5) (w.rands.skip 6) with
    | none => rw [hp] at h; exact absurd h (by simp)
    | some pr =>
      rw [hp] at h
      simp only [Option.map_some', Option.some.injEq] at h
      subst h
      exact ⟨rfl, rfl, rfl, rfl, rfl, rfl, rfl, rfl, rfl⟩

theorem Input_fields (s : PlayState) (pressed : Bool) :
    (s.Input pressed).jumpSpeed = s.jumpSpeed ∧ (s.Input pressed).gSpeed = s.gSpeed ∧
    (s.Input pressed).gMax = s.gMax ∧ (s.Input pressed).circle = s.circle ∧
    (s.Input pressed).isHit = s.isHit ∧ (s.Input pressed).pipePairs = s.pipePairs ∧
    (s.Input pressed).score = s.score ∧ (s.Input pressed).state = s.state ∧
    (s.Input pressed).isStateChanged = s.isStateChanged ∧
    ((s.Input pressed).velocity.y = s.velocity.y ∨
      (s.Input pressed).velocity.y = -s.jumpSpeed) := by
  unfold PlayState.Input
  split
  · exact ⟨rfl, rfl, rfl, rfl, rfl, rfl, rfl, rfl, rfl, Or.inr rfl⟩
  · exact ⟨rfl, rfl, rfl, rfl, rfl, rfl, rfl, rfl, rfl, Or.inl rfl⟩

/-- C4: in every state reachable from the start of a Play session (`position.y = 25`,
`velocity.y = 0`, `jumpSpeed = 350`, `gMax = 400`) by calls of `PlayState::Input` and
of `PlayState::Logic(dt)` with `dt ≥ 0`, the player satisfies
`-jumpSpeed ≤ velocity.y ≤ gMax` and `position.y ≥ 0`. -/
theorem PlayState_velocity_position_invariant (circleBounds : FloatRect) (u : Uninit)
    (fuel : Nat) (w : World) (start s : PlayState)
    (hstart : (PlayState.new circleBounds u fuel w).map Prod.fst = some start)
    (hreach : PlayState.Reachable (fun dt => 0 ≤ dt) start s) :
    (start.circle.position.y = 25 ∧ start.velocity.y = 0 ∧ start.jumpSpeed = 350 ∧
      start.gMax = 400) ∧
    -s.jumpSpeed ≤ s.velocity.y ∧ s.velocity.y ≤ s.gMax ∧ 0 ≤ s.circle.position.y := by
  obtain ⟨hp, hv, hj, hg, hm, -⟩ := PlayState_new_fields circleBounds u fuel w start hstart
  refine ⟨⟨by rw [hp], by rw [hv], hj, hm⟩, ?_⟩
  have key : s.jumpSpeed = 350 ∧ s.gSpeed = 50 ∧ s.gMax = 400 ∧
      -350 ≤ s.velocity.y ∧ s.velocity.y ≤ 400 ∧ 0 ≤ s.circle.position.y := by
    induction hreach with
    | start =>
      refine ⟨hj, hg, hm, ?_, ?_, ?_⟩
      · rw [hv]; norm_num
      · rw [hv]; norm_num
      · rw [hp]; norm_num
    | input s0 pressed _ ih =>
      obtain ⟨i1, i2, i3, i4, i5, i6⟩ := ih
      obtain ⟨e1, e2, e3, e4, -, -, -, -, -, e5⟩ := Input_fields s0 pressed
      refine ⟨e1.trans i1, e2.trans i2, e3.trans i3, ?_, ?_, by rw [e4]; exact i6⟩
      · rcases e5 with e5 | e5
        · rw [e5]; exact i4
        · rw [e5, i1]
      · rcases e5 with e5 | e5
        · rw [e5]; exact i5
        · rw [e5, i1]; norm_num
    | logic s0 s1 dt w0 _ _ hl ih =>
      obtain ⟨i1, i2, i3, i4, i5, i6⟩ := ih
      obtain ⟨⟨s1', w1⟩, hl1, hl2⟩ := Option.map_eq_some'.mp hl
      simp only at hl2
      subst hl2
      obtain ⟨r, -, -, -, -, hvel, hcirc, e1, e2, e3, -⟩ :=
        PlayState_Logic_fields s0 s1' dt w0 w1 hl1
      refine ⟨e1.trans i1, e2.trans i2, e3.trans i3, ?_, ?_, ?_⟩
      · rw [hvel]; unfold PlayState.fall; simp only [i2, i3]
        split <;> linarith
      · rw [hvel]; unfold PlayState.fall; simp only [i2, i3]
        split
        · exact le_refl _
        · rename_i hle; exact not_lt.mp hle
      · rw [hcirc]; exact moveCircle_nonneg _ _ _
  obtain ⟨k1, -, k3, k4, k5, k6⟩ := key
  rw [k1, k3]
  exact ⟨k4, k5, k6⟩

/-- The constructor of `PlayState` in `exampleWorld` builds `exampleStart`. -/
theorem exampleStart_eq :
    (PlayState.new exampleBounds exampleUninit 0 exampleWorld).map Prod.fst
      = some exampleStart := by decide!

/-- The session built in `exampleWorld`, after a jump: `velocity.y = -350`. -/
theorem PlayState_velocity_position_invariant_witness :
    ((PlayState.new exampleBounds exampleUninit 0 exampleWorld).map Prod.fst = some exampleStart ∧
      PlayState.Reachable (fun dt => 0 ≤ dt) exampleStart (exampleStart.Input true)) ∧
    (exampleStart.circle.position.y = 25 ∧ exampleStart.velocity.y = 0 ∧
      exampleStart.jumpSpeed = 350 ∧ exampleStart.gMax = 400) ∧
    -(exampleStart.Input true).jumpSpeed ≤ (exampleStart.Input true).velocity.y ∧
    (exampleStart.Input true).velocity.y ≤ (exampleStart.Input true).gMax ∧
    0 ≤ (exampleStart.Input true).circle.position.y :=
  ⟨⟨exampleStart_eq, PlayState.Reachable.input _ true PlayState.Reachable.start⟩,
    PlayState_velocity_position_invariant exampleBounds exampleUninit 0 exampleWorld
      exampleStart (exampleStart.Input true) exampleStart_eq
      (PlayState.Reachable.input _ true PlayState.Reachable.start)⟩


theorem PlayState_Logic_of_isHit (s : PlayState) (dt : ℚ) (w : World) (h : s.isHit = true) :
    ∃ s1 w1, s.Logic dt w = some (s1, w1) ∧ s1.isHit = true ∧ s1.pipePairs = s.pipePairs ∧
      s1.score = s.score := by
  have ha : s.advancePipes dt w.rands = some ⟨s.pipePairs, s.isHit, s.score, w.rands⟩ := by
    unfold PlayState.advancePipes
    simp [h]
  cases hl : s.Logic dt w with
  | none =>
    unfold PlayState.Logic at hl
    rw [ha] at hl
    exact absurd hl (by simp)
  | some r =>
    obtain ⟨s1, w1⟩ := r
    obtain ⟨r, hr, e1, e2, e3, -⟩ := PlayState_Logic_fields s s1 dt w w1 hl
    rw [ha] at hr
    simp only [Option.some.injEq] at hr
    subst hr
    exact ⟨s1, w1, rfl, e2.trans h, e1, e3⟩

/-- `PipePair::IsIntersectBounds` is true exactly when the bounds of the first pipe or
the bounds of the second pipe intersect the global bounds of the circle. -/
theorem IsIntersectBounds_iff (p : PipePair) (circle : CircleShape) :
    p.IsIntersectBounds circle = true ↔
      (p.pipes.1.bounds.intersects circle.getGlobalBounds = true ∨
        p.pipes.2.bounds.intersects circle.getGlobalBounds = true) := by
  unfold PipePair.IsIntersectBounds
  cases h1 : p.pipes.1.bounds.intersects circle.getGlobalBounds <;>
  cases h2 : p.pipes.2.bounds.intersects circle.getGlobalBounds <;>
  simp

/-- C5: the collision latch of `PlayState::Logic`.  Whenever a call returns, every
pair of the result is the advanced version of the pair before (if `isHit` was
clear); if the bounds of the first pipe or the bounds of the second pipe of such a
pair intersect the player's bounding box (the global bounds of the circle, tested
before the circle moves), then `isHit` is set on return; and `isHit` is set on
return exactly when it was set before or one of these intersections holds.  From
a state with `isHit` set, every call returns and leaves `isHit` set and every pipe
pair and `score` unchanged, and so does every later sequence of `Input` and
`Logic` calls. -/
theorem Logic_collision_latch (s : PlayState) (dt : ℚ) (w : World) :
    (∀ s1 w1, s.Logic dt w = some (s1, w1) →
      (s.isHit = false →
        List.Forall₂ (fun p p1 => ∃ ra rb, p.Logic s.windowSize dt ra = some (p1, rb))
          s.pipePairs s1.pipePairs) ∧
      (∀ p1 ∈ s1.pipePairs,
        (p1.pipes.1.bounds.intersects s.circle.getGlobalBounds = true ∨
          p1.pipes.2.bounds.intersects s.circle.getGlobalBounds = true) →
        s1.isHit = true) ∧
      (s1.isHit = true ↔
        s.isHit = true ∨
          ∃ p1 ∈ s1.pipePairs,
            (p1.pipes.1.bounds.intersects s.circle.getGlobalBounds = true ∨
              p1.pipes.2.bounds.intersects s.circle.getGlobalBounds = true))) ∧
    (s.isHit = true →
      ∃ s1 w1, s.Logic dt w = some (s1, w1) ∧ s1.isHit = true ∧
        s1.pipePairs = s.pipePairs ∧ s1.score = s.score) ∧
    (s.isHit = true →
      ∀ s2, PlayState.Reachable (fun _ => True) s s2 →
        s2.isHit = true ∧ s2.pipePairs = s.pipePairs ∧ s2.score = s.score) := by
  refine ⟨?_, PlayState_Logic_of_isHit s dt w, ?_⟩
  · intro s1 w1 hl
    obtain ⟨r, hr, e1, e2, e3, -⟩ := PlayState_Logic_fields s s1 dt w w1 hl
    have hiff0 : s1.isHit = true ↔
        s.isHit = true ∨ ∃ p1 ∈ s1.pipePairs, p1.IsIntersectBounds s.circle = true := by
      cases hh : s.isHit with
      | true =>
        obtain ⟨s1', w1', hl', h1, -, -⟩ := PlayState_Logic_of_isHit s dt w hh
        rw [hl] at hl'
        simp only [Option.some.injEq, Prod.mk.injEq] at hl'
        rw [hl'.1]
        simp [h1]
      | false =>
        unfold PlayState.advancePipes at hr
        simp only [hh, Bool.not_false, if_true] at hr
        have := (pipesLoop_spec _ _ _ _ _ _ _ _ hr).2
        rw [e1, e2, this]
    have hiff : s1.isHit = true ↔
        s.isHit = true ∨
          ∃ p1 ∈ s1.pipePairs,
            (p1.pipes.1.bounds.intersects s.circle.getGlobalBounds = true ∨
              p1.pipes.2.bounds.intersects s.circle.getGlobalBounds = true) := by
      rw [hiff0]
      constructor
      · rintro (h | ⟨p1, hp1, hx⟩)
        · exact Or.inl h
        · exact Or.inr ⟨p1, hp1, (IsIntersectBounds_iff p1 s.circle).mp hx⟩
      · rintro (h | ⟨p1, hp1, hx⟩)
        · exact Or.inl h
        · exact Or.inr ⟨p1, hp1, (IsIntersectBounds_iff p1 s.circle).mpr hx⟩
    refine ⟨?_, fun p1 hp1 hx => hiff.mpr (Or.inr ⟨p1, hp1, hx⟩), hiff⟩
    intro hh
    unfold PlayState.advancePipes at hr
    simp only [hh, Bool.not_false, if_true] at hr
    rw [e1]
    exact (pipesLoop_spec _ _ _ _ _ _ _ _ hr).1
  · intro hh s2 hreach
    induction hreach with
    | start => exact ⟨hh, rfl, rfl⟩
    | input s0 pressed _ ih =>
      obtain ⟨-, -, -, -, e5, e6, e7, -⟩ := Input_fields s0 pressed
      exact ⟨e5.trans ih.1, e6.trans ih.2.1, e7.trans ih.2.2⟩
    | logic s0 s1 dt0 w0 _ _ hl ih =>
      obtain ⟨⟨s1', w1⟩, hl1, hl2⟩ := Option.map_eq_some'.mp hl
      simp only at hl2
      subst hl2
      obtain ⟨s1'', w1'', hl', h1, h2, h3⟩ := PlayState_Logic_of_isHit s0 dt0 w0 ih.1
      rw [hl1] at hl'
      simp only [Option.some.injEq, Prod.mk.injEq] at hl'
      rw [hl'.1]
      exact ⟨h1, h2.trans ih.2.1, h3.trans ih.2.2⟩

/-- In the session built in `exampleWorld`, the call `Logic(11/4)` moves the last pair
(index 4) to `x = 53`, over the player, who is still at `y = 25`: the bounds of its
top pipe (0 to 155) intersect the player's box, those of its bottom pipe (280 to
600) do not. -/
theorem exampleStart_collision :
    (exampleStart.Logic (11 / 4) exampleWorld).map
        (fun r => (r.1.isHit,
          (r.1.pipePairs.get? 4).map (fun p1 =>
            (p1.pipes.1.bounds, p1.pipes.2.bounds,
             p1.pipes.1.bounds.intersects exampleStart.circle.getGlobalBounds,
             p1.pipes.2.bounds.intersects exampleStart.circle.getGlobalBounds))))
      = some (true, some (⟨53, 0, 50, 155⟩, ⟨53, 280, 50, 320⟩, true, false)) := by decide!

/-- The same call with the player at `y = 300`: only the bounds of the bottom pipe of
the last pair intersect the player's box (300 to 332), and `isHit` is set. -/
theorem exampleLowStart_collision :
    (exampleLowStart.Logic (11 / 4) exampleWorld).map
        (fun r => (r.1.isHit,
          r.1.pipePairs.map (fun p1 =>
            p1.pipes.1.bounds.intersects exampleLowStart.circle.getGlobalBounds),
          (r.1.pipePairs.get? 4).map (fun p1 =>
            (p1.pipes.1.bounds, p1.pipes.2.bounds,
             p1.pipes.2.bounds.intersects exampleLowStart.circle.getGlobalBounds))))
      = some (true, [false, false, false, false, false],
          some (⟨53, 0, 50, 155⟩, ⟨53, 280, 50, 320⟩, true)) := by decide!

/-- A call in which the top pipe of a pair meets the player, a call in which only the
bottom pipe of a pair does, and a call from a state with `isHit` set. -/
theorem Logic_collision_latch_witness :
    (∃ s1 w1 p1, exampleStart.Logic (11 / 4) exampleWorld = some (s1, w1) ∧
      p1 ∈ s1.pipePairs ∧
      p1.pipes.1.bounds.intersects exampleStart.circle.getGlobalBounds = true ∧
      s1.isHit = true) ∧
    (∃ s1 w1 p1, exampleLowStart.Logic (11 / 4) exampleWorld = some (s1, w1) ∧
      p1 ∈ s1.pipePairs ∧
      p1.pipes.1.bounds.intersects exampleLowStart.circle.getGlobalBounds = false ∧
      p1.pipes.2.bounds.intersects exampleLowStart.circle.getGlobalBounds = true ∧
      s1.isHit = true) ∧
    ({ exampleStart with isHit := true } : PlayState).isHit = true ∧
    (∃ s1 w1, ({ exampleStart with isHit := true } : PlayState).Logic (1 / 64) exampleWorld
        = some (s1, w1) ∧ s1.isHit = true ∧
      s1.pipePairs = ({ exampleStart with isHit := true } : PlayState).pipePairs ∧
      s1.score = ({ exampleStart with isHit := true } : PlayState).score) := by
  refine ⟨?_, ?_, rfl,
    (Logic_collision_latch { exampleStart with isHit := true } (1 / 64) exampleWorld).2.1 rfl⟩
  · have hc := exampleStart_collision
    cases hl : exampleStart.Logic (11 / 4) exampleWorld with
    | none => rw [hl] at hc; exact absurd hc (by simp)
    | some r =>
      obtain ⟨s1, w1⟩ := r
      rw [hl] at hc
      simp only [Option.map_some', Option.some.injEq, Prod.mk.injEq] at hc
      obtain ⟨-, hp⟩ := hc
      obtain ⟨p1, hget, hval⟩ := Option.map_eq_some'.mp hp
      simp only [Prod.mk.injEq] at hval
      have hmem : p1 ∈ s1.pipePairs := List.get?_mem hget
      exact ⟨s1, w1, p1, rfl, hmem, hval.2.2.1,
        ((Logic_collision_latch exampleStart (11 / 4) exampleWorld).1 s1 w1 hl).2.1 p1 hmem
          (Or.inl hval.2.2.1)⟩
  · have hc := exampleLowStart_collision
    cases hl : exampleLowStart.Logic (11 / 4) exampleWorld with
    | none => rw [hl] at hc; exact absurd hc (by simp)
    | some r =>
      obtain ⟨s1, w1⟩ := r
      rw [hl] at hc
      simp only [Option.map_some', Option.some.injEq, Prod.mk.injEq] at hc
      obtain ⟨-, hall, hp⟩ := hc
      obtain ⟨p1, hget, hval⟩ := Option.map_eq_some'.mp hp
      simp only [Prod.mk.injEq] at hval
      have hmem : p1 ∈ s1.pipePairs := List.get?_mem hget
      have htop : p1.pipes.1.bounds.intersects exampleLowStart.circle.getGlobalBounds
          = false := by
        have hin : p1.pipes.1.bounds.intersects exampleLowStart.circle.getGlobalBounds
            ∈ s1.pipePairs.map (fun p1 =>
              p1.pipes.1.bounds.intersects exampleLowStart.circle.getGlobalBounds) :=
          List.mem_map_of_mem _ hmem
        rw [hall] at hin
        simpa using hin
      exact ⟨s1, w1, p1, rfl, hmem, htop, hval.2.2,
        ((Logic_collision_latch exampleLowStart (11 / 4) exampleWorld).1 s1 w1 hl).2.1 p1 hmem
          (Or.inr hval.2.2)⟩

/-- C3: the score is not raised exactly once per pass.  The session starts as the
constructor builds it when `rand()` returns 80 (gap of every pair from 155 to 280);
no jump is made.  After the first call `Logic(43/16)` the last pair's gap
rectangle is right of the player (left edge 59.25, player from 25 to 57) and the
player's box (159.375 to 191.375) is vertically inside the gap.  Then

* the calls `Logic(53/64)`, `Logic(1/128)`, `Logic(1/128)` carry the gap to the right
  edge 24.875, left of the player, without a collision and with the box inside the
  gap throughout, and `score` goes from 0 to 2: it is raised in each of the two
  frames in which the right edge of the gap (26.4375, then 25.65625) lies between
  the player's left edge and `x + 1.75`;
* the single call `Logic(27/32)` carries the gap to the same place and `score`
  stays 0.

Each row below is `(score, isHit, player box, gap rectangle)` after one call.  The
first run gives the same scores for the narrower box `⟨11/128, 0, 4073/128, 32⟩`. -/
theorem score_not_once_per_pass :
    (PlayState.new exampleBounds exampleUninit 0 exampleWorld).map Prod.fst
      = some exampleStart ∧
    PlayState.runObserve 4 [43 / 16, 53 / 64, 1 / 128, 1 / 128] exampleStart exampleWorld
      = some [(0, false, ⟨25, 1275 / 8, 32, 32⟩, some ⟨237 / 4, 155, 50, 125⟩),
              (1, false, ⟨25, 3875 / 16, 32, 32⟩, some ⟨-377 / 16, 155, 50, 125⟩),
              (2, false, ⟨25, 15575 / 64, 32, 32⟩, some ⟨-779 / 32, 155, 50, 125⟩),
              (2, false, ⟨25, 15675 / 64, 32, 32⟩, some ⟨-201 / 8, 155, 50, 125⟩)] ∧
    PlayState.runObserve 4 [43 / 16, 27 / 32] exampleStart exampleWorld
      = some [(0, false, ⟨25, 1275 / 8, 32, 32⟩, some ⟨237 / 4, 155, 50, 125⟩),
              (0, false, ⟨25, 975 / 4, 32, 32⟩, some ⟨-201 / 8, 155, 50, 125⟩)] ∧
    PlayState.runObserve 4 [43 / 16, 53 / 64, 1 / 128, 1 / 128]
        { exampleStart with
          circle := { exampleStart.circle with localBounds := ⟨11 / 128, 0, 4073 / 128, 32⟩ } }
        exampleWorld
      = some [(0, false, ⟨3211 / 128, 1275 / 8, 4073 / 128, 32⟩, some ⟨237 / 4, 155, 50, 125⟩),
              (1, false, ⟨3211 / 128, 3875 / 16, 4073 / 128, 32⟩, some ⟨-377 / 16, 155, 50, 125⟩),
              (2, false, ⟨3211 / 128, 15575 / 64, 4073 / 128, 32⟩, some ⟨-779 / 32, 155, 50, 125⟩),
              (2, false, ⟨3211 / 128, 15675 / 64, 4073 / 128, 32⟩, some ⟨-201 / 8, 155, 50, 125⟩)] ∧
    ((25 : ℚ) + 32 < 237 / 4 ∧ (-201 / 8 : ℚ) + 50 < 25 ∧
      (155 : ℚ) < 1275 / 8 ∧ (15675 / 64 : ℚ) + 32 < 155 + 125 ∧ (975 / 4 : ℚ) + 32 < 155 + 125) := by
  refine ⟨by decide!, by decide!, by decide!, by decide!, by norm_num⟩


/-! ## The screen state machine -/

theorem MenuState_Initialize_length {B : Type} (ops : ButtonOps B) (windowSize : Vector2u)
    (buttonSize : Vector2f) :
    ∀ (indices : List Nat) (rands : RandStream),
      (MenuState.Initialize ops windowSize buttonSize indices rands).1.length
        = indices.length := by
  intro indices
  induction indices with
  | nil => intro rands; rfl
  | cons i rest ih =>
    intro rands
    simp only [MenuState.Initialize, List.length_cons, ih]

theorem MenuState_new_wellFormed {B : Type} (ops : ButtonOps B) (u : Uninit) (w : World) :
    (MenuState.new ops u w).1.buttons.length = 3 ∧
    (MenuState.new ops u w).1.isStateChanged = false := by
  refine ⟨?_, rfl⟩
  simp only [MenuState.new]
  rw [MenuState_Initialize_length]
  rfl

/-- The click loop over at most three buttons only ever requests Play, HighScore or
Quit. -/
theorem clickLoop_request {B : Type} (ops : ButtonOps B) (mousePos : Vector2f) :
    ∀ (buttons : List B) (i : Nat) (state : StateId) (changed : Bool),
      i + buttons.length ≤ 3 →
      (changed = true → allowedEdge .Menu state = true) →
      (MenuState.clickLoop ops mousePos buttons i state changed).2 = true →
      allowedEdge .Menu (MenuState.clickLoop ops mousePos buttons i state changed).1 = true := by
  intro buttons
  induction buttons with
  | nil =>
    intro i state changed _ h hc
    exact h hc
  | cons b rest ih =>
    intro i state changed hlen h hc
    simp only [List.length_cons] at hlen
    unfold MenuState.clickLoop at hc ⊢
    split
    · rename_i hb
      rw [if_pos hb] at hc
      refine ih (i + 1) _ true (by omega) (fun _ => ?_) hc
      have hi : i = 0 ∨ i = 1 ∨ i = 2 := by omega
      rcases hi with rfl | rfl | rfl <;> rfl
    · rename_i hb
      rw [if_neg hb] at hc
      exact ih (i + 1) state changed (by omega) h hc

theorem MenuState_ManageEvent_wellFormed {B : Type} (ops : ButtonOps B) (s : MenuState B)
    (e : Event) (mousePos : Vector2f)
    (h : (Screen.menu s).wellFormed) : (Screen.menu (s.ManageEvent ops e mousePos)).wellFormed := by
  obtain ⟨hlen, hreq⟩ := h
  have hlen3 : s.buttons.length = 3 := hlen s rfl
  have hmap : (s.buttons.map (fun b => ops.Logic b e mousePos)).length = 3 := by
    rw [List.length_map]; exact hlen3
  simp only [Screen.isStateChanged, Screen.kind, Screen.state] at hreq
  unfold MenuState.ManageEvent
  cases e with
  | MouseButtonPressed code =>
    simp only
    split
    · refine ⟨fun s1 hs1 => ?_, ?_⟩
      · simp only [Screen.menu.injEq] at hs1
        subst hs1
        exact hmap
      · simp only [Screen.isStateChanged, Screen.kind, Screen.state]
        exact clickLoop_request ops mousePos _ 0 s.state s.isStateChanged
          (by rw [hmap]) hreq
    · refine ⟨fun s1 hs1 => ?_, hreq⟩
      simp only [Screen.menu.injEq] at hs1
      subst hs1
      exact hmap
  | Closed =>
    refine ⟨fun s1 hs1 => ?_, hreq⟩
    simp only [Screen.menu.injEq] at hs1
    subst hs1
    exact hmap
  | Resized _ _ =>
    refine ⟨fun s1 hs1 => ?_, hreq⟩
    simp only [Screen.menu.injEq] at hs1
    subst hs1
    exact hmap
  | KeyPressed _ =>
    refine ⟨fun s1 hs1 => ?_, hreq⟩
    simp only [Screen.menu.injEq] at hs1
    subst hs1
    exact hmap
  | Other =>
    refine ⟨fun s1 hs1 => ?_, hreq⟩
    simp only [Screen.menu.injEq] at hs1
    subst hs1
    exact hmap


theorem Screen_ManageEvent_wellFormed {B : Type} (ops : ButtonOps B) (e : Event)
    (mousePos : Vector2f) (screen : Screen B) (h : screen.wellFormed) :
    (screen.ManageEvent ops e mousePos).wellFormed := by
  cases screen with
  | menu s => exact MenuState_ManageEvent_wellFormed ops s e mousePos h
  | play s =>
    refine ⟨fun s1 hs1 => by simp [Screen.ManageEvent] at hs1, ?_⟩
    have hreq := h.2
    simp only [Screen.isStateChanged, Screen.kind, Screen.state, Screen.ManageEvent] at hreq ⊢
    unfold PlayState.ManageEvent
    cases e with
    | KeyPressed code =>
      simp only
      split
      · intro _; rfl
      · exact hreq
    | _ => exact hreq
  | highScore s =>
    refine ⟨fun s1 hs1 => by simp [Screen.ManageEvent] at hs1, ?_⟩
    have hreq := h.2
    simp only [Screen.isStateChanged, Screen.kind, Screen.state, Screen.ManageEvent] at hreq ⊢
    unfold HighScoreState.ManageEvent
    cases e with
    | KeyPressed code =>
      simp only
      split
      · intro _; rfl
      · exact hreq
    | _ => exact hreq

theorem Screen_setWindowSize_wellFormed {B : Type} (size : Vector2u) (screen : Screen B)
    (h : screen.wellFormed) : (screen.setWindowSize size).wellFormed := by
  cases screen with
  | menu s =>
    refine ⟨fun s1 hs1 => ?_, h.2⟩
    simp only [Screen.setWindowSize, Screen.menu.injEq] at hs1
    subst hs1
    exact h.1 s rfl
  | play s => exact ⟨fun s1 hs1 => by simp [Screen.setWindowSize] at hs1, h.2⟩
  | highScore s => exact ⟨fun s1 hs1 => by simp [Screen.setWindowSize] at hs1, h.2⟩

theorem Screen_Input_wellFormed {B : Type} (pressed : Bool) (screen : Screen B)
    (h : screen.wellFormed) : (screen.Input pressed).wellFormed := by
  cases screen with
  | menu s => exact h
  | highScore s => exact h
  | play s =>
    refine ⟨fun s1 hs1 => by simp [Screen.Input] at hs1, ?_⟩
    have hreq := h.2
    obtain ⟨-, -, -, -, -, -, -, e8, e9, -⟩ := Input_fields s pressed
    simp only [Screen.isStateChanged, Screen.kind, Screen.state, Screen.Input] at hreq ⊢
    rw [e8, e9]
    exact hreq

theorem Screen_Logic_wellFormed {B : Type} (dt : ℚ) (w w1 : World) (screen screen1 : Screen B)
    (hl : screen.Logic dt w = some (screen1, w1)) (h : screen.wellFormed) :
    screen1.wellFormed := by
  cases screen with
  | menu s =>
    simp only [Screen.Logic, Option.some.injEq, Prod.mk.injEq] at hl
    rw [← hl.1]; exact h
  | highScore s =>
    simp only [Screen.Logic, Option.some.injEq, Prod.mk.injEq] at hl
    rw [← hl.1]; exact h
  | play s =>
    simp only [Screen.Logic] at hl
    cases hp : s.Logic dt w with
    | none => rw [hp] at hl; exact absurd hl (by simp)
    | some r =>
      obtain ⟨s1, w2⟩ := r
      rw [hp] at hl
      simp only [Option.some.injEq, Prod.mk.injEq] at hl
      rw [← hl.1]
      refine ⟨fun s2 hs2 => by simp at hs2, ?_⟩
      have hreq := h.2
      obtain ⟨_, -, -, -, -, -, -, -, -, -, -, -, hch⟩ := PlayState_Logic_fields s s1 dt w w2 hp
      simp only [Screen.isStateChanged, Screen.kind, Screen.state] at hreq ⊢
      rcases hch with ⟨c1, c2⟩ | ⟨-, c2⟩
      · rw [c1, c2]; exact hreq
      · rw [c2]; intro _; rfl

theorem Screen_clearStateChanged_fields {B : Type} (screen : Screen B) :
    screen.clearStateChanged.isStateChanged = false ∧
    screen.clearStateChanged.kind = screen.kind ∧
    ((∀ s, screen = .menu s → s.buttons.length = 3) → screen.clearStateChanged.wellFormed) := by
  cases screen with
  | menu s =>
    refine ⟨rfl, rfl, fun h => ⟨fun s1 hs1 => ?_, fun hc => absurd hc (by simp [Screen.clearStateChanged, Screen.isStateChanged])⟩⟩
    simp only [Screen.clearStateChanged, Screen.menu.injEq] at hs1
    subst hs1
    exact h s rfl
  | play s =>
    exact ⟨rfl, rfl, fun _ => ⟨fun s1 hs1 => by simp [Screen.clearStateChanged] at hs1,
      fun hc => absurd hc (by simp [Screen.clearStateChanged, Screen.isStateChanged])⟩⟩
  | highScore s =>
    exact ⟨rfl, rfl, fun _ => ⟨fun s1 hs1 => by simp [Screen.clearStateChanged] at hs1,
      fun hc => absurd hc (by simp [Screen.clearStateChanged, Screen.isStateChanged])⟩⟩

theorem pollEvents_wellFormed {B : Type} (ops : ButtonOps B) (mousePos : Vector2f) :
    ∀ (events : List Event) (g : Game B), g.gameState.wellFormed →
      (Game.pollEvents ops mousePos events g).gameState.wellFormed := by
  intro events
  induction events with
  | nil => intro g h; exact h
  | cons e rest ih =>
    intro g h
    unfold Game.pollEvents
    split
    · apply ih
      apply Screen_ManageEvent_wellFormed
      cases e with
      | Resized width height => exact Screen_setWindowSize_wellFormed _ _ h
      | _ => exact h
    · exact h

/-- What the swap block of `Game::Logic` does: nothing without a request; on the request
Quit it closes the window and keeps the screen; otherwise the screen of the
requested class replaces the active one.  The flag is clear afterwards. -/
theorem swapScreen_spec {B : Type} (ops : ButtonOps B) (circleBounds : FloatRect) (g g1 : Game B)
    (u : Uninit) (fuel : Nat) (hs : g.swapScreen ops circleBounds u fuel = some g1)
    (h : g.gameState.wellFormed) :
    g1.gameState.wellFormed ∧
    (g.gameState.isStateChanged = false → g1 = g) ∧
    (g.gameState.isStateChanged = true →
      g1.gameState.isStateChanged = false ∧
      (g.gameState.state = .Quit →
        g1.windowOpen = false ∧ g1.gameState.kind = g.gameState.kind) ∧
      (g.gameState.state ≠ .Quit →
        g1.windowOpen = g.windowOpen ∧ g1.gameState.kind = g.gameState.state)) := by
  unfold Game.swapScreen at hs
  cases hc : g.gameState.isStateChanged with
  | false =>
    rw [hc] at hs
    simp only [Bool.false_eq_true, if_false, Option.some.injEq] at hs
    subst hs
    exact ⟨h, fun _ => rfl, fun hf => absurd hf (by simp)⟩
  | true =>
    rw [hc] at hs
    simp only [if_true] at hs
    cases hst : g.gameState.state with
    | Menu =>
      rw [hst] at hs
      simp only [Option.some.injEq] at hs
      subst hs
      refine ⟨?_, fun hf => absurd hf (by simp),
        fun _ => ⟨rfl, fun hq => absurd hq (by simp), fun _ => ⟨rfl, rfl⟩⟩⟩
      refine ⟨fun s1 hs1 => ?_, fun hx => ?_⟩
      · simp only [Screen.clearStateChanged, Screen.menu.injEq] at hs1
        subst hs1
        exact (MenuState_new_wellFormed ops u g.world).1
      · simp [Screen.clearStateChanged, Screen.isStateChanged] at hx
    | Play =>
      rw [hst] at hs
      simp only at hs
      cases hp : PlayState.new circleBounds u fuel g.world with
      | none => rw [hp] at hs; exact absurd hs (by simp)
      | some r =>
        obtain ⟨s, w⟩ := r
        rw [hp] at hs
        simp only [Option.some.injEq] at hs
        subst hs
        refine ⟨?_, fun hf => absurd hf (by simp),
          fun _ => ⟨rfl, fun hq => absurd hq (by simp), fun _ => ⟨rfl, rfl⟩⟩⟩
        refine ⟨fun s1 hs1 => ?_, fun hx => ?_⟩
        · simp [Screen.clearStateChanged] at hs1
        · simp [Screen.clearStateChanged, Screen.isStateChanged] at hx
    | HighScore =>
      rw [hst] at hs
      simp only at hs
      cases hp : HighScoreState.new u fuel g.world with
      | none => rw [hp] at hs; exact absurd hs (by simp)
      | some r =>
        obtain ⟨s, w⟩ := r
        rw [hp] at hs
        simp only [Option.some.injEq] at hs
        subst hs
        refine ⟨?_, fun hf => absurd hf (by simp),
          fun _ => ⟨rfl, fun hq => absurd hq (by simp), fun _ => ⟨rfl, rfl⟩⟩⟩
        refine ⟨fun s1 hs1 => ?_, fun hx => ?_⟩
        · simp [Screen.clearStateChanged] at hs1
        · simp [Screen.clearStateChanged, Screen.isStateChanged] at hx
    | Quit =>
      rw [hst] at hs
      simp only [Option.some.injEq] at hs
      subst hs
      refine ⟨(Screen_clearStateChanged_fields g.gameState).2.2 h.1,
        fun hf => absurd hf (by simp),
        fun _ => ⟨(Screen_clearStateChanged_fields g.gameState).1,
          fun _ => ⟨rfl, (Screen_clearStateChanged_fields g.gameState).2.1⟩,
          fun hq => absurd rfl hq⟩⟩

theorem frame_wellFormed {B : Type} (ops : ButtonOps B) (circleBounds : FloatRect) (g g1 : Game B)
    (inp : FrameInput) (hf : Game.frame ops circleBounds g inp = some g1)
    (h : g.gameState.wellFormed) : g1.gameState.wellFormed := by
  unfold Game.frame at hf
  cases hs : g.swapScreen ops circleBounds inp.uninit inp.fuel with
  | none => rw [hs] at hf; exact absurd hf (by simp)
  | some g2 =>
    rw [hs] at hf
    simp only at hf
    have h2 := (swapScreen_spec ops circleBounds g g2 _ _ hs h).1
    have h3 : (Game.pollEvents ops inp.mousePos inp.events
        { g2 with initDt := (Game.clockStep g2.initDt inp.elapsed).initDt }).gameState.wellFormed :=
      pollEvents_wellFormed ops inp.mousePos inp.events _ h2
    have h4 := Screen_Input_wellFormed inp.pressed _ h3
    split at hf
    · exact absurd hf (by simp)
    · rename_i screen w hl
      simp only [Option.some.injEq] at hf
      subst hf
      exact Screen_Logic_wellFormed _ _ _ _ _ hl h4

theorem Reachable_wellFormed {B : Type} (ops : ButtonOps B) (circleBounds : FloatRect)
    (g : Game B) (h : Game.Reachable ops circleBounds g) : g.gameState.wellFormed := by
  induction h with
  | init u w =>
    refine ⟨fun s hs => ?_, fun hc => ?_⟩
    · simp only [Game.new, Screen.menu.injEq] at hs
      subst hs
      exact (MenuState_new_wellFormed ops u w).1
    · simp [Game.new, Screen.isStateChanged, MenuState.new] at hc
  | step g0 g1 inp _ _ hf ih => exact frame_wellFormed ops circleBounds g0 g1 inp hf ih


/-- A left click over three buttons: the last button that contains the mouse position
decides, button `i` (from 0) requesting the state `i + 1`. -/
theorem clickLoop_three {B : Type} (ops : ButtonOps B) (mousePos : Vector2f) (b0 b1 b2 : B)
    (state : StateId) (changed : Bool) :
    MenuState.clickLoop ops mousePos [b0, b1, b2] 0 state changed
      = (if ops.IsPositionInBounds b2 mousePos then StateId.Quit
         else if ops.IsPositionInBounds b1 mousePos then StateId.HighScore
         else if ops.IsPositionInBounds b0 mousePos then StateId.Play
         else state,
         ops.IsPositionInBounds b2 mousePos || ops.IsPositionInBounds b1 mousePos
           || ops.IsPositionInBounds b0 mousePos || changed) := by
  cases h0 : ops.IsPositionInBounds b0 mousePos <;>
  cases h1 : ops.IsPositionInBounds b1 mousePos <;>
  cases h2 : ops.IsPositionInBounds b2 mousePos <;>
  simp [MenuState.clickLoop, h0, h1, h2]

theorem allowedEdge_cases (kind state : StateId) (h : allowedEdge kind state = true) :
    (kind = .Menu → state = .Play ∨ state = .HighScore ∨ state = .Quit) ∧
    (kind = .Play ∨ kind = .HighScore → state = .Menu) ∧ kind ≠ .Quit := by
  cases kind <;> cases state <;> simp [allowedEdge] at h ⊢

/-- C8: the screen state machine.  The game starts on the Menu screen with no request
pending.  In every state the loop of `Game::Logic` reaches, when the active screen
has `isStateChanged` set, its requested `state` is Play, HighScore or Quit if the
screen is the Menu and is Menu if the screen is Play or HighScore; the swap block
then performs exactly that transition (for Quit it closes the window and keeps
the screen) and clears the flag, and without a request it changes nothing.  On
the Menu a left click on button `i` requests the state `i + 1`. -/
theorem screen_state_machine {B : Type} (ops : ButtonOps B) (circleBounds : FloatRect) :
    (∀ u w, (Game.new ops ⟨800, 600⟩ u w).gameState.kind = .Menu ∧
      (Game.new ops ⟨800, 600⟩ u w).gameState.isStateChanged = false) ∧
    (∀ g, Game.Reachable ops circleBounds g → g.gameState.isStateChanged = true →
      (g.gameState.kind = .Menu →
        g.gameState.state = .Play ∨ g.gameState.state = .HighScore ∨
          g.gameState.state = .Quit) ∧
      (g.gameState.kind = .Play ∨ g.gameState.kind = .HighScore →
        g.gameState.state = .Menu) ∧
      allowedEdge g.gameState.kind g.gameState.state = true) ∧
    (∀ g u fuel g1, Game.Reachable ops circleBounds g →
      g.swapScreen ops circleBounds u fuel = some g1 →
      (g.gameState.isStateChanged = false → g1 = g) ∧
      (g.gameState.isStateChanged = true →
        allowedEdge g.gameState.kind g.gameState.state = true ∧
        g1.gameState.isStateChanged = false ∧
        (g.gameState.state = .Quit →
          g1.windowOpen = false ∧ g1.gameState.kind = g.gameState.kind) ∧
        (g.gameState.state ≠ .Quit →
          g1.windowOpen = g.windowOpen ∧ g1.gameState.kind = g.gameState.state))) ∧
    (∀ (s : MenuState B) (mousePos : Vector2f) (b0 b1 b2 : B),
      s.buttons.map (fun b => ops.Logic b (.MouseButtonPressed Mouse.Left) mousePos)
        = [b0, b1, b2] →
      (s.ManageEvent ops (.MouseButtonPressed Mouse.Left) mousePos).state
        = (if ops.IsPositionInBounds b2 mousePos then StateId.Quit
           else if ops.IsPositionInBounds b1 mousePos then StateId.HighScore
           else if ops.IsPositionInBounds b0 mousePos then StateId.Play
           else s.state) ∧
      (s.ManageEvent ops (.MouseButtonPressed Mouse.Left) mousePos).isStateChanged
        = (ops.IsPositionInBounds b2 mousePos || ops.IsPositionInBounds b1 mousePos
            || ops.IsPositionInBounds b0 mousePos || s.isStateChanged)) := by
  refine ⟨fun u w => ⟨rfl, rfl⟩, ?_, ?_, ?_⟩
  · intro g hg hc
    have hwf := (Reachable_wellFormed ops circleBounds g hg).2 hc
    obtain ⟨h1, h2, -⟩ := allowedEdge_cases _ _ hwf
    exact ⟨h1, h2, hwf⟩
  · intro g u fuel g1 hg hs
    have hwf := Reachable_wellFormed ops circleBounds g hg
    obtain ⟨-, h2, h3⟩ := swapScreen_spec ops circleBounds g g1 u fuel hs hwf
    exact ⟨h2, fun hc => ⟨hwf.2 hc, h3 hc⟩⟩
  · intro s mousePos b0 b1 b2 hb
    unfold MenuState.ManageEvent
    simp only [if_true]
    rw [hb, clickLoop_three]
    exact ⟨rfl, rfl⟩

/-- The first frame of the game with a left click at a position inside every button:
the Menu requests Quit (the last button decides). -/
theorem exampleClick_frame :
    (Game.frame exampleOps exampleBounds
        (Game.new exampleOps ⟨800, 600⟩ exampleUninit exampleWorld) exampleClick).map
      (fun g => (g.gameState.kind, g.gameState.state, g.gameState.isStateChanged, g.windowOpen))
      = some (.Menu, .Quit, true, true) := by decide!

/-- The state after that frame is reachable with a request pending along the edge
Menu -> Quit, and the swap block then closes the window. -/
theorem screen_state_machine_witness :
    ∃ g1 g2,
      Game.frame exampleOps exampleBounds
        (Game.new exampleOps ⟨800, 600⟩ exampleUninit exampleWorld) exampleClick = some g1 ∧
      Game.Reachable exampleOps exampleBounds g1 ∧
      g1.gameState.isStateChanged = true ∧ g1.gameState.kind = .Menu ∧
      g1.gameState.state = .Quit ∧
      allowedEdge g1.gameState.kind g1.gameState.state = true ∧
      g1.swapScreen exampleOps exampleBounds exampleUninit 0 = some g2 ∧
      g2.windowOpen = false ∧ g2.gameState.kind = .Menu ∧
      g2.gameState.isStateChanged = false := by
  have hf := exampleClick_frame
  cases hg : Game.frame exampleOps exampleBounds
      (Game.new exampleOps ⟨800, 600⟩ exampleUninit exampleWorld) exampleClick with
  | none => rw [hg] at hf; exact absurd hf (by simp)
  | some g1 =>
    rw [hg] at hf
    simp only [Option.map_some', Option.some.injEq, Prod.mk.injEq] at hf
    obtain ⟨hk, hs, hc, -⟩ := hf
    have hr : Game.Reachable exampleOps exampleBounds g1 :=
      Game.Reachable.step _ g1 exampleClick (Game.Reachable.init exampleUninit exampleWorld)
        rfl hg
    have hsw : g1.swapScreen exampleOps exampleBounds exampleUninit 0
        = some { g1 with windowOpen := false, gameState := g1.gameState.clearStateChanged } := by
      unfold Game.swapScreen
      rw [hc, hs]
      rfl
    have h3 := ((screen_state_machine exampleOps exampleBounds).2.2.1 g1 exampleUninit 0 _
      hr hsw).2 hc
    refine ⟨g1, _, rfl, hr, hc, hk, hs,
      ((screen_state_machine exampleOps exampleBounds).2.1 g1 hr hc).2.2, hsw,
      (h3.2.2.1 hs).1, ?_, h3.2.1⟩
    rw [(h3.2.2.1 hs).2, hk]

end FlappyBall
